import Mathlib

/-
Verification of the catalog and ordering backend (Django, `src/api/`).
Each section embeds one slice of the source (models, serializers, views)
as executable Lean definitions and proves the corresponding claims.
Python dicts are modelled as insertion-ordered association lists, Django
querysets as Lean lists of rows, and database writes as pure state
transformers over record types holding the relevant tables.
-/

set_option maxRecDepth 4000

/-! ## Shared helpers -/

/-- Python `str.strip()`: drop leading and trailing whitespace. -/
def pyStrip (s : String) : String :=
  String.mk (((s.toList.dropWhile Char.isWhitespace).reverse.dropWhile
    Char.isWhitespace).reverse)

/-- Lookup in an insertion-ordered association list (Python `d[k]` / `k in d`). -/
def lookupAssoc {α : Type} (m : List (String × α)) (k : String) : Option α :=
  (m.find? (fun p => p.1 == k)).map (·.2)

/-- Python dict assignment `m[k] = v`: an existing key keeps its position and
gets the new value, a new key is appended at the end. -/
def assocSet {α : Type} (m : List (String × α)) (k : String) (v : α) : List (String × α) :=
  if m.any (fun p => p.1 == k) then
    m.map (fun p => if p.1 == k then (p.1, v) else p)
  else m ++ [(k, v)]

/-! ## C1: dimension merge (`ProductSerializer._merge_dimensions`, src/api/serializers.py) -/

/-- One dimension row: a measurement name plus a size-label-to-value map,
the map modelled as an insertion-ordered association list (a JSON dict).
Mirrors the `DimensionRow` model fields and the `{"measurement", "values"}`
override entries of `Product.dimensions` read by `_merge_dimensions`. -/
structure DimRow where
  measurement : String
  values : List (String × String)
  deriving DecidableEq, Repr

/-- Python `base.update(upd)` on dicts: keys already present keep their
position and receive the new value; new keys are appended in `upd` order. -/
def dictUpdate (base upd : List (String × String)) : List (String × String) :=
  upd.foldl (fun acc kv =>
    if acc.any (fun p => p.1 == kv.1) then
      acc.map (fun p => if p.1 == kv.1 then (p.1, kv.2) else p)
    else acc ++ [kv]) base

/-- The `override_map` dict comprehension of `_merge_dimensions`: keys are the
override measurements, values the override value maps; a duplicated
measurement overwrites the stored values in place. -/
def buildOverrideMap (overrideRows : List DimRow) : List (String × List (String × String)) :=
  overrideRows.foldl (fun m r => assocSet m r.measurement r.values) []

/-- Shallow embedding of `ProductSerializer._merge_dimensions`: template rows
(already ordered by `display_order`) each overlaid with the non-empty values
of the override map entry of the same measurement, then the override map
entries absent from the accumulated result appended in insertion order. -/
def mergeDimensions (templateRows overrideRows : List DimRow) : List DimRow :=
  (buildOverrideMap overrideRows).foldl (fun acc p =>
    if acc.any (fun r => r.measurement == p.1) then acc
    else acc ++ [{ measurement := p.1, values := p.2 }])
    (templateRows.map (fun row =>
      match lookupAssoc (buildOverrideMap overrideRows) row.measurement with
      | some ov =>
          { measurement := row.measurement,
            values := dictUpdate row.values (ov.filter (fun kv => kv.2 != "")) }
      | none => { measurement := row.measurement, values := row.values }))

/-- Overlay of one template row with the matching override entry, as the
specification words it: only the non-empty override values are written over
the template value map. -/
def overlayRow (overrideRows : List DimRow) (row : DimRow) : DimRow :=
  match overrideRows.find? (fun o => o.measurement == row.measurement) with
  | some ov =>
      { measurement := row.measurement,
        values := dictUpdate row.values (ov.values.filter (fun kv => kv.2 != "")) }
  | none => row

/-- The dimension merge as the specification words it: start from the template
rows in display order, overlay on each the non-empty values of the override
entry carrying the same measurement, and append the override entries whose
measurement occurs in no template row, in their original override order. -/
def mergeDimensionsSpec (templateRows overrideRows : List DimRow) : List DimRow :=
  templateRows.map (overlayRow overrideRows) ++
  overrideRows.filter (fun o => !(templateRows.any (fun r => r.measurement == o.measurement)))

lemma buildOverrideMap_go (l : List DimRow) :
    ∀ (m : List (String × List (String × String))),
      (∀ r ∈ l, ∀ p ∈ m, p.1 ≠ r.measurement) →
      (l.map (·.measurement)).Nodup →
      l.foldl (fun m r => assocSet m r.measurement r.values) m
        = m ++ l.map (fun r => (r.measurement, r.values)) := by
  induction l with
  | nil => intro m _ _; simp
  | cons r l ih =>
      intro m hdisj hnd
      have hnot : m.any (fun p => p.1 == r.measurement) = false := by
        rw [List.any_eq_false]
        intro p hp
        simpa using hdisj r (by simp) p hp
      have hstep : assocSet m r.measurement r.values = m ++ [(r.measurement, r.values)] := by
        simp [assocSet, hnot]
      have hnd' : (l.map (·.measurement)).Nodup := by
        simpa using hnd.of_cons
      have hhead : r.measurement ∉ l.map (·.measurement) := by
        have h1 : ((r :: l).map (·.measurement)).Nodup := hnd
        rw [List.map_cons, List.nodup_cons] at h1
        exact h1.1
      have hdisj' : ∀ s ∈ l, ∀ p ∈ m ++ [(r.measurement, r.values)], p.1 ≠ s.measurement := by
        intro s hs p hp
        rcases List.mem_append.mp hp with hpm | hpr
        · exact hdisj s (by simp [hs]) p hpm
        · have hpr' : p = (r.measurement, r.values) := by simpa using hpr
          subst hpr'
          intro hcontra
          have hmem : s.measurement ∈ l.map (·.measurement) :=
            List.mem_map_of_mem (·.measurement) hs
          have hcontra' : r.measurement = s.measurement := hcontra
          exact hhead (hcontra'.symm ▸ hmem)
      calc (r :: l).foldl (fun m r => assocSet m r.measurement r.values) m
          = l.foldl (fun m r => assocSet m r.measurement r.values)
              (m ++ [(r.measurement, r.values)]) := by simp [hstep]
        _ = (m ++ [(r.measurement, r.values)]) ++ l.map (fun r => (r.measurement, r.values)) :=
            ih _ hdisj' hnd'
        _ = m ++ (r :: l).map (fun r => (r.measurement, r.values)) := by simp

lemma buildOverrideMap_eq (overrideRows : List DimRow)
    (h : (overrideRows.map (·.measurement)).Nodup) :
    buildOverrideMap overrideRows
      = overrideRows.map (fun r => (r.measurement, r.values)) := by
  simpa using buildOverrideMap_go overrideRows [] (by simp) h

lemma lookupAssoc_map_pairs (l : List DimRow) (k : String) :
    lookupAssoc (l.map (fun r => (r.measurement, r.values))) k
      = (l.find? (fun r => r.measurement == k)).map (·.values) := by
  induction l with
  | nil => simp [lookupAssoc]
  | cons r l ih =>
      by_cases h : (r.measurement == k) = true
      · rw [lookupAssoc, List.map_cons, List.find?_cons_of_pos _ (by simpa using h),
          List.find?_cons_of_pos (p := fun (o : DimRow) => o.measurement == k) _ h]
        simp
      · rw [lookupAssoc, List.map_cons, List.find?_cons_of_neg _ (by simpa using h),
          List.find?_cons_of_neg (p := fun (o : DimRow) => o.measurement == k) _ h]
        exact ih

lemma any_measurement_eq_any_map (l : List DimRow) (m : String) :
    l.any (fun r => r.measurement == m) = (l.map (·.measurement)).any (fun x => x == m) := by
  induction l with
  | nil => rfl
  | cons a l ih => simp only [List.map_cons, List.any_cons, ih]

lemma any_measurement_of_map_eq {l₁ l₂ : List DimRow}
    (h : l₁.map (·.measurement) = l₂.map (·.measurement)) (m : String) :
    l₁.any (fun r => r.measurement == m) = l₂.any (fun r => r.measurement == m) := by
  rw [any_measurement_eq_any_map, any_measurement_eq_any_map, h]

lemma append_overrides_go (om : List (String × List (String × String))) :
    ∀ (acc : List DimRow), (om.map (·.1)).Nodup →
      om.foldl (fun acc p =>
        if acc.any (fun r => r.measurement == p.1) then acc
        else acc ++ [{ measurement := p.1, values := p.2 }]) acc
      = acc ++ (om.filter (fun p => !(acc.any (fun r => r.measurement == p.1)))).map
          (fun p => { measurement := p.1, values := p.2 : DimRow }) := by
  induction om with
  | nil => intro acc _; simp
  | cons p om ih =>
      intro acc hnd
      have hnd' : (om.map (·.1)).Nodup := by
        rw [List.map_cons, List.nodup_cons] at hnd
        exact hnd.2
      have hhead : p.1 ∉ om.map (·.1) := by
        rw [List.map_cons, List.nodup_cons] at hnd
        exact hnd.1
      by_cases hin : (acc.any (fun r => r.measurement == p.1)) = true
      · rw [List.foldl_cons, if_pos hin, ih acc hnd',
          List.filter_cons_of_neg (by simp [hin])]
      · rw [List.foldl_cons, if_neg hin, ih _ hnd',
          List.filter_cons_of_pos (by simp [hin])]
        have hfil : om.filter
              (fun q => !((acc ++ [{ measurement := p.1, values := p.2 : DimRow }]).any
                (fun r => r.measurement == q.1)))
            = om.filter (fun q => !(acc.any (fun r => r.measurement == q.1))) := by
          apply List.filter_congr
          intro q hq
          have hne : p.1 ≠ q.1 := by
            intro hcontra
            exact hhead (hcontra ▸ List.mem_map_of_mem (·.1) hq)
          simp [List.any_append, hne]
        rw [hfil]
        simp

lemma map_pairs_filter_comm (o : List DimRow) (c : String → Bool) :
    ((o.map (fun r => (r.measurement, r.values))).filter (fun p => c p.1)).map
        (fun p => { measurement := p.1, values := p.2 : DimRow })
      = o.filter (fun r => c r.measurement) := by
  induction o with
  | nil => simp
  | cons r o ih =>
      by_cases h : c r.measurement = true
      · simp only [List.map_cons, List.filter_cons]
        rw [if_pos (by simpa using h), if_pos h]
        simp only [List.map_cons]
        rw [ih]
      · simp only [List.map_cons, List.filter_cons]
        rw [if_neg (by simpa using h), if_neg h]
        exact ih

/-- Claim C1: with a linked dimension template and an override list whose
measurement names are pairwise distinct, `_merge_dimensions` computes exactly
what the specification describes: the template rows in display order, each
overlaid with only the non-empty override values of the matching override
entry (an empty-string override value never erases a template value, a
non-empty one overwrites or adds per size key), followed by the override
entries whose measurement occurs in no template row, in their original
override order; and with no template rows and no overrides the result is
the empty list. -/
theorem merge_dimensions_matches_spec (templateRows overrideRows : List DimRow)
    (h : (overrideRows.map (·.measurement)).Nodup) :
    mergeDimensions templateRows overrideRows
        = mergeDimensionsSpec templateRows overrideRows ∧
      mergeDimensions [] [] = [] := by
  constructor
  · unfold mergeDimensions
    rw [buildOverrideMap_eq overrideRows h]
    have hmap : templateRows.map (fun row =>
        match lookupAssoc (overrideRows.map (fun r => (r.measurement, r.values)))
            row.measurement with
        | some ov =>
            { measurement := row.measurement,
              values := dictUpdate row.values (ov.filter (fun kv => kv.2 != "")) }
        | none => { measurement := row.measurement, values := row.values })
        = templateRows.map (overlayRow overrideRows) := by
      apply List.map_congr_left
      intro row _
      rw [lookupAssoc_map_pairs]
      unfold overlayRow
      cases hfind : overrideRows.find? (fun o => o.measurement == row.measurement) with
      | none => simp
      | some ov => simp
    rw [hmap]
    have hkeys : (templateRows.map (overlayRow overrideRows)).map (·.measurement)
        = templateRows.map (·.measurement) := by
      rw [List.map_map]
      apply List.map_congr_left
      intro row _
      simp only [Function.comp_apply]
      unfold overlayRow
      cases overrideRows.find? (fun o => o.measurement == row.measurement) with
      | none => rfl
      | some ov => rfl
    rw [append_overrides_go _ (templateRows.map (overlayRow overrideRows)) (by simpa using h)]
    unfold mergeDimensionsSpec
    congr 1
    have hfil : (overrideRows.map (fun r => (r.measurement, r.values))).filter
          (fun p => !((templateRows.map (overlayRow overrideRows)).any
            (fun r => r.measurement == p.1)))
        = (overrideRows.map (fun r => (r.measurement, r.values))).filter
          (fun p => !(templateRows.any (fun r => r.measurement == p.1))) := by
      apply List.filter_congr
      intro q _
      rw [any_measurement_of_map_eq hkeys q.1]
    rw [hfil]
    exact map_pairs_filter_comm overrideRows
      (fun m => !(templateRows.any (fun r => r.measurement == m)))
  · rfl

/-- Witness for C1 at the concrete example of the specification: template row
`Length -> {Single: 190cm}` and override `Length -> {Single: "", Double: 200cm}`
merge to `Length -> {Single: 190cm, Double: 200cm}`, and a second override
measurement absent from the template is appended verbatim. -/
theorem merge_dimensions_matches_spec_witness :
    mergeDimensions [⟨"Length", [("Single", "190cm")]⟩]
        [⟨"Length", [("Single", ""), ("Double", "200cm")]⟩, ⟨"Depth", [("Single", "30cm")]⟩]
      = mergeDimensionsSpec [⟨"Length", [("Single", "190cm")]⟩]
        [⟨"Length", [("Single", ""), ("Double", "200cm")]⟩, ⟨"Depth", [("Single", "30cm")]⟩] ∧
    mergeDimensions [⟨"Length", [("Single", "190cm")]⟩]
        [⟨"Length", [("Single", ""), ("Double", "200cm")]⟩, ⟨"Depth", [("Single", "30cm")]⟩]
      = [⟨"Length", [("Single", "190cm"), ("Double", "200cm")]⟩, ⟨"Depth", [("Single", "30cm")]⟩] := by
  constructor
  · exact (merge_dimensions_matches_spec _ _ (by decide)).1
  · decide

/-! ## C2: dynamic catalog filtering (`ProductViewSet.get_queryset`, src/api/views.py) -/

/-- Row of the `FilterType` model (fields read by `get_queryset`). -/
structure FilterTypeRow where
  id : Nat
  slug : String
  is_active : Bool
  deriving DecidableEq, Repr

/-- Row of the `FilterOption` model (fields read by `get_queryset`). -/
structure FilterOptionRow where
  id : Nat
  filter_type_id : Nat
  slug : String
  deriving DecidableEq, Repr

/-- Row of the `ProductFilterValue` join model. -/
structure ProductFilterValueRow where
  product_id : Nat
  filter_option_id : Nat
  deriving DecidableEq, Repr

/-- The tables consulted by the dynamic filtering of the product listing. -/
structure CatalogDB where
  filterTypes : List FilterTypeRow
  options : List FilterOptionRow
  links : List ProductFilterValueRow
  deriving Repr

/-- The `ProductFilterValue` rows produced by the ORM join
`filter_values__filter_option__slug__in=option_slugs,
filter_values__filter_option__filter_type=ft` for one product: both lookups
sit on the same join path, so one link row must satisfy both. -/
def matchingLinks (db : CatalogDB) (ft : FilterTypeRow) (optionSlugs : List String)
    (productId : Nat) : List ProductFilterValueRow :=
  db.links.filter (fun l => l.product_id == productId &&
    db.options.any (fun o => o.id == l.filter_option_id &&
      (o.filter_type_id == ft.id && optionSlugs.contains o.slug)))

/-- One `queryset.filter(...).distinct()` step: the join multiplies each
product by its matching link rows and `.distinct()` collapses the result back
to one row per product. -/
def applyJoinFilter (db : CatalogDB) (ft : FilterTypeRow) (optionSlugs : List String)
    (q : List Nat) : List Nat :=
  (q.flatMap (fun p => (matchingLinks db ft optionSlugs p).map (fun _ => p))).dedup

/-- Python `s.split(",")`: split at every comma, keeping empty pieces. -/
def splitCommaAux : List Char → List Char → List String
  | [], acc => [String.mk acc.reverse]
  | c :: cs, acc =>
      if c = ',' then String.mk acc.reverse :: splitCommaAux cs []
      else splitCommaAux cs (c :: acc)

/-- Python `filter_values.split(',')` on a query-parameter string. -/
def splitComma (s : String) : List String := splitCommaAux s.toList []

/-- One iteration of the dynamic-filter loop of `get_queryset`: if the filter
type is active and its slug is supplied as a non-empty query parameter, apply
the option-slug restriction, otherwise leave the queryset unchanged. -/
def dynamicFilterStep (db : CatalogDB) (params : List (String × String))
    (q : List Nat) (ft : FilterTypeRow) : List Nat :=
  if ft.is_active then
    match lookupAssoc params ft.slug with
    | some s => if s ≠ "" then applyJoinFilter db ft (splitComma s) q else q
    | none => q
  else q

/-- Shallow embedding of the dynamic part of `ProductViewSet.get_queryset`:
for every active `FilterType` whose slug is supplied as a non-empty query
parameter, restrict the running queryset by the comma-separated option slugs. -/
def applyDynamicFilters (db : CatalogDB) (params : List (String × String))
    (q : List Nat) : List Nat :=
  db.filterTypes.foldl (dynamicFilterStep db params) q

/-- Product `p` is linked (via `ProductFilterValue`) to at least one of the
named options belonging to filter type `ft`: logical OR within one type. -/
def productMatchesType (db : CatalogDB) (p : Nat) (ft : FilterTypeRow)
    (optionSlugs : List String) : Prop :=
  ∃ l ∈ db.links, l.product_id = p ∧
    ∃ o ∈ db.options, o.id = l.filter_option_id ∧
      o.filter_type_id = ft.id ∧ o.slug ∈ optionSlugs

instance (db : CatalogDB) (p : Nat) (ft : FilterTypeRow) (optionSlugs : List String) :
    Decidable (productMatchesType db p ft optionSlugs) := by
  unfold productMatchesType
  infer_instance

/-- Product `p` satisfies every supplied filter-type restriction: logical AND
across the active filter types whose slug carries a non-empty parameter. -/
def passesFilters (db : CatalogDB) (params : List (String × String)) (p : Nat)
    (fts : List FilterTypeRow) : Prop :=
  ∀ ft ∈ fts, ft.is_active = true →
    ∀ s, lookupAssoc params ft.slug = some s → s ≠ "" →
      productMatchesType db p ft (splitComma s)

lemma mem_applyJoinFilter (db : CatalogDB) (ft : FilterTypeRow) (optionSlugs : List String)
    (q : List Nat) (p : Nat) :
    p ∈ applyJoinFilter db ft optionSlugs q ↔
      p ∈ q ∧ productMatchesType db p ft optionSlugs := by
  unfold applyJoinFilter
  rw [List.mem_dedup, List.mem_flatMap]
  constructor
  · rintro ⟨a, ha, hp⟩
    rcases List.mem_map.mp hp with ⟨l, hl, rfl⟩
    have hl' := List.mem_filter.mp hl
    refine ⟨ha, l, hl'.1, ?_⟩
    have hcond := hl'.2
    simp only [Bool.and_eq_true, beq_iff_eq, List.any_eq_true] at hcond
    obtain ⟨hpid, o, ho, hoid, hot, hslug⟩ := hcond
    exact ⟨hpid.symm ▸ rfl, o, ho, hoid, hot, by simpa using hslug⟩
  · rintro ⟨hq, l, hl, hpid, o, ho, hoid, hot, hslug⟩
    refine ⟨p, hq, List.mem_map.mpr ⟨l, ?_, rfl⟩⟩
    apply List.mem_filter.mpr
    refine ⟨hl, ?_⟩
    simp only [Bool.and_eq_true, beq_iff_eq, List.any_eq_true]
    exact ⟨hpid, o, ho, hoid, hot, by simpa using hslug⟩


lemma mem_dynamicFilterStep (db : CatalogDB) (params : List (String × String))
    (q : List Nat) (ft : FilterTypeRow) (p : Nat) :
    p ∈ dynamicFilterStep db params q ft ↔
      p ∈ q ∧ (ft.is_active = true →
        ∀ s, lookupAssoc params ft.slug = some s → s ≠ "" →
          productMatchesType db p ft (splitComma s)) := by
  unfold dynamicFilterStep
  by_cases hact : ft.is_active
  · rw [if_pos hact]
    cases hlk : lookupAssoc params ft.slug with
    | none => simp [hlk]
    | some s =>
        by_cases hs : s = ""
        · subst hs
          simp [hlk]
        · have hred : (match some s with
              | some t => if t ≠ "" then applyJoinFilter db ft (splitComma t) q else q
              | none => q) = applyJoinFilter db ft (splitComma s) q := by
            simp [hs]
          rw [hred, mem_applyJoinFilter]
          constructor
          · rintro ⟨hq, hm⟩
            refine ⟨hq, fun _ t ht hne => ?_⟩
            have hst : s = t := Option.some.inj ht
            exact hst ▸ hm
          · rintro ⟨hq, hcond⟩
            exact ⟨hq, hcond hact s rfl hs⟩
  · rw [if_neg hact]
    constructor
    · intro hq
      exact ⟨hq, fun hcontra => absurd hcontra hact⟩
    · exact fun h => h.1

lemma nodup_dynamicFilterStep (db : CatalogDB) (params : List (String × String))
    (q : List Nat) (ft : FilterTypeRow) (h : q.Nodup) :
    (dynamicFilterStep db params q ft).Nodup := by
  unfold dynamicFilterStep
  by_cases hact : ft.is_active
  · rw [if_pos hact]
    cases hlk : lookupAssoc params ft.slug with
    | none => exact h
    | some s =>
        by_cases hs : s = ""
        · subst hs
          simp [h]
        · have hred : (match some s with
              | some t => if t ≠ "" then applyJoinFilter db ft (splitComma t) q else q
              | none => q) = applyJoinFilter db ft (splitComma s) q := by
            simp [hs]
          rw [hred]
          exact List.nodup_dedup _
  · rw [if_neg hact]
    exact h

lemma mem_applyDynamicFilters_go (db : CatalogDB) (params : List (String × String))
    (p : Nat) (fts : List FilterTypeRow) :
    ∀ q : List Nat,
      p ∈ fts.foldl (dynamicFilterStep db params) q ↔
        p ∈ q ∧ passesFilters db params p fts := by
  induction fts with
  | nil =>
      intro q
      simp [passesFilters]
  | cons ft fts ih =>
      intro q
      rw [List.foldl_cons, ih, mem_dynamicFilterStep]
      unfold passesFilters
      constructor
      · rintro ⟨⟨hq, hft⟩, hrest⟩
        refine ⟨hq, ?_⟩
        intro ft' hft' hact s hs hsne
        rcases List.mem_cons.mp hft' with rfl | hmem
        · exact hft hact s hs hsne
        · exact hrest ft' hmem hact s hs hsne
      · rintro ⟨hq, hall⟩
        refine ⟨⟨hq, fun hact s hs hsne => hall ft (by simp) hact s hs hsne⟩, ?_⟩
        intro ft' hmem hact s hs hsne
        exact hall ft' (by simp [hmem]) hact s hs hsne

lemma nodup_applyDynamicFilters (db : CatalogDB) (params : List (String × String))
    (q : List Nat) (h : q.Nodup) : (applyDynamicFilters db params q).Nodup := by
  unfold applyDynamicFilters
  induction db.filterTypes generalizing q with
  | nil => simpa using h
  | cons ft fts ih =>
      rw [List.foldl_cons]
      exact ih _ (nodup_dynamicFilterStep db params q ft h)

/-- Claim C2: for every base queryset (without duplicate products) and every
set of query parameters, a product is in the filtered catalog listing exactly
when it is in the base queryset and, for every active `FilterType` whose slug
carries a non-empty comma-separated parameter, the product is linked to at
least one of the named options of that specific type (OR within a type, AND
across types); moreover every product appears at most once in the result. -/
theorem catalog_filter_query_semantics (db : CatalogDB) (params : List (String × String))
    (q : List Nat) (h : q.Nodup) :
    (∀ p, p ∈ applyDynamicFilters db params q ↔
      p ∈ q ∧ passesFilters db params p db.filterTypes) ∧
    (applyDynamicFilters db params q).Nodup ∧
    (∀ p, (applyDynamicFilters db params q).count p ≤ 1) := by
  refine ⟨fun p => mem_applyDynamicFilters_go db params p db.filterTypes q, ?_, ?_⟩
  · exact nodup_applyDynamicFilters db params q h
  · intro p
    exact List.nodup_iff_count_le_one.mp (nodup_applyDynamicFilters db params q h) p

/-- Concrete catalog for the C2 witness: filter types Colour (slug `colour`)
and Size (slug `size`); options a, b, z under Colour and c under Size;
product 1 carries options a, b (Colour) and c (Size). -/
def exampleCatalogDB : CatalogDB :=
  { filterTypes := [⟨1, "colour", true⟩, ⟨2, "size", true⟩],
    options := [⟨1, 1, "a"⟩, ⟨2, 1, "b"⟩, ⟨3, 2, "c"⟩, ⟨4, 1, "z"⟩],
    links := [⟨1, 1⟩, ⟨1, 2⟩, ⟨1, 3⟩] }

/-- Witness for C2 at the specification example: product 1 is returned for
`colour=a&size=c` and for `colour=a,z`, and rejected for `colour=z`. -/
theorem catalog_filter_query_semantics_witness :
    (1 ∈ applyDynamicFilters exampleCatalogDB [("colour", "a"), ("size", "c")] [1] ↔
      1 ∈ [1] ∧ passesFilters exampleCatalogDB [("colour", "a"), ("size", "c")] 1
        exampleCatalogDB.filterTypes) ∧
    applyDynamicFilters exampleCatalogDB [("colour", "a"), ("size", "c")] [1] = [1] ∧
    applyDynamicFilters exampleCatalogDB [("colour", "z")] [1] = [] ∧
    applyDynamicFilters exampleCatalogDB [("colour", "a,z")] [1] = [1] := by
  refine ⟨(catalog_filter_query_semantics exampleCatalogDB
    [("colour", "a"), ("size", "c")] [1] (by decide)).1 1, ?_, ?_, ?_⟩
  · decide
  · decide
  · decide

/-! ## C3: filter-value synchronization (`ProductWriteSerializer._sync_filter_values`,
src/api/serializers.py, and `ProductViewSet._handle_filter_values`, src/api/views.py) -/

/-- One persisted `ProductFilterValue` row together with its primary key, so
row identity across operations is observable. -/
structure LinkRow where
  row_id : Nat
  product_id : Nat
  filter_option_id : Int
  deriving DecidableEq, Repr

/-- The `ProductFilterValue` table plus the next auto-generated primary key. -/
structure LinkState where
  rows : List LinkRow
  nextId : Nat
  deriving DecidableEq, Repr

/-- One entry of the `filter_values` payload read by `_sync_filter_values`:
its `filter_option` and `filter_option_id` keys. -/
structure FilterValueItem where
  filter_option : Option Int
  filter_option_id : Option Int
  deriving DecidableEq, Repr

/-- Python `a or b` over optional integers (`None` and `0` are falsy). -/
def pyOrInt (a b : Option Int) : Option Int :=
  match a with
  | some v => if v = 0 then b else some v
  | none => b

/-- The id-extraction loop of `_sync_filter_values`: take
`item.get("filter_option") or item.get("filter_option_id")` and skip falsy
results. -/
def parseDesiredIds (items : List FilterValueItem) : List Int :=
  items.filterMap (fun it =>
    match pyOrInt it.filter_option it.filter_option_id with
    | some v => if v = 0 then none else some v
    | none => none)

/-- Sequential row creation with auto-increment primary keys, modelling
`bulk_create` / repeated `objects.create`. -/
def createRows (productId : Nat) : Nat → List Int → List LinkRow
  | _, [] => []
  | startId, i :: is =>
      { row_id := startId, product_id := productId, filter_option_id := i } ::
        createRows productId (startId + 1) is

/-- The rows surviving the delete step of `_sync_filter_values`:
`filter(product=product).exclude(filter_option_id__in=ids).delete()` removes
exactly the product links whose option id is not desired. -/
def keptRows (productId : Nat) (items : List FilterValueItem) (st : LinkState) : List LinkRow :=
  st.rows.filter (fun r =>
    !(r.product_id == productId && !((parseDesiredIds items).contains r.filter_option_id)))

/-- The `existing` id set of `_sync_filter_values`, read from the table after
the delete step. -/
def existingIds (productId : Nat) (items : List FilterValueItem) (st : LinkState) : List Int :=
  ((keptRows productId items st).filter (fun r =>
    r.product_id == productId &&
      (parseDesiredIds items).contains r.filter_option_id)).map (·.filter_option_id)

/-- The `to_create` list of `_sync_filter_values`: desired ids not already
linked. -/
def toCreateIds (productId : Nat) (items : List FilterValueItem) (st : LinkState) : List Int :=
  (parseDesiredIds items).filter (fun i =>
    !((existingIds productId items st).contains i))

/-- Shallow embedding of `ProductWriteSerializer._sync_filter_values`: delete
the product links whose option id is not desired, read the still-linked
desired ids, and bulk-create links only for the missing desired ids. -/
def syncFilterValues (productId : Nat) (items : List FilterValueItem)
    (st : LinkState) : LinkState :=
  { rows := keptRows productId items st ++
      createRows productId st.nextId (toCreateIds productId items st),
    nextId := st.nextId + (toCreateIds productId items st).length }

/-- Shallow embedding of `ProductViewSet._handle_filter_values` (the handler
invoked by the product create/update endpoints): delete every existing link
of the product, then recreate one link per payload entry whose option id is
truthy and exists in the `FilterOption` table. -/
def handleFilterValues (productId : Nat) (optionIds : List Int)
    (items : List (Option Int)) (st : LinkState) : LinkState :=
  let kept := st.rows.filter (fun r => !(r.product_id == productId))
  let cleaned := items.filterMap (fun it =>
    match it with
    | some v =>
        if v = 0 then none
        else if optionIds.contains v then some v else none
    | none => none)
  { rows := kept ++ createRows productId st.nextId cleaned,
    nextId := st.nextId + cleaned.length }

lemma createRows_map_option (productId : Nat) :
    ∀ (startId : Nat) (is : List Int),
      (createRows productId startId is).map (·.filter_option_id) = is := by
  intro startId is
  induction is generalizing startId with
  | nil => rfl
  | cons i is ih => simp [createRows, ih]

lemma createRows_product (productId : Nat) :
    ∀ (startId : Nat) (is : List Int) (c : LinkRow),
      c ∈ createRows productId startId is → c.product_id = productId := by
  intro startId is
  induction is generalizing startId with
  | nil => intro c hc; cases hc
  | cons i is ih =>
      intro c hc
      rcases List.mem_cons.mp hc with rfl | hmem
      · rfl
      · exact ih _ c hmem

lemma createRows_option_mem (productId : Nat) :
    ∀ (startId : Nat) (is : List Int) (c : LinkRow),
      c ∈ createRows productId startId is → c.filter_option_id ∈ is := by
  intro startId is
  induction is generalizing startId with
  | nil => intro c hc; cases hc
  | cons i is ih =>
      intro c hc
      rcases List.mem_cons.mp hc with rfl | hmem
      · simp
      · exact List.mem_cons_of_mem _ (ih _ c hmem)

lemma mem_createRows_of_option (productId : Nat) :
    ∀ (startId : Nat) (is : List Int) (i : Int), i ∈ is →
      ∃ c ∈ createRows productId startId is,
        c.filter_option_id = i ∧ c.product_id = productId := by
  intro startId is
  induction is generalizing startId with
  | nil => intro i hi; cases hi
  | cons j is ih =>
      intro i hi
      rcases List.mem_cons.mp hi with rfl | hmem
      · exact ⟨_, List.mem_cons_self _ _, rfl, rfl⟩
      · obtain ⟨c, hc, hco, hcp⟩ := ih _ i hmem
        exact ⟨c, List.mem_cons_of_mem _ hc, hco, hcp⟩

lemma mem_keptRows (productId : Nat) (items : List FilterValueItem) (st : LinkState)
    (r : LinkRow) :
    r ∈ keptRows productId items st ↔
      r ∈ st.rows ∧ (r.product_id = productId → r.filter_option_id ∈ parseDesiredIds items) := by
  unfold keptRows
  rw [List.mem_filter]
  constructor
  · rintro ⟨hr, hcond⟩
    refine ⟨hr, fun hp => ?_⟩
    by_contra hno
    simp [hp, hno] at hcond
  · rintro ⟨hr, hcond⟩
    refine ⟨hr, ?_⟩
    by_cases hp : r.product_id = productId
    · simp [hp, hcond hp]
    · simp [hp]

lemma mem_existingIds (productId : Nat) (items : List FilterValueItem) (st : LinkState)
    (i : Int) :
    i ∈ existingIds productId items st ↔
      i ∈ parseDesiredIds items ∧
        ∃ r ∈ st.rows, r.product_id = productId ∧ r.filter_option_id = i := by
  unfold existingIds
  rw [List.mem_map]
  constructor
  · rintro ⟨r, hr, rfl⟩
    have hr' := List.mem_filter.mp hr
    have hcond := hr'.2
    simp only [Bool.and_eq_true, beq_iff_eq] at hcond
    have hkept := (mem_keptRows productId items st r).mp hr'.1
    exact ⟨by simpa using hcond.2, r, hkept.1, hcond.1, rfl⟩
  · rintro ⟨hi, r, hr, hp, rfl⟩
    refine ⟨r, List.mem_filter.mpr ⟨?_, ?_⟩, rfl⟩
    · exact (mem_keptRows productId items st r).mpr ⟨hr, fun _ => hi⟩
    · simp only [Bool.and_eq_true, beq_iff_eq]
      exact ⟨hp, by simpa using hi⟩

lemma mem_toCreateIds (productId : Nat) (items : List FilterValueItem) (st : LinkState)
    (i : Int) :
    i ∈ toCreateIds productId items st ↔
      i ∈ parseDesiredIds items ∧
        ¬∃ r ∈ st.rows, r.product_id = productId ∧ r.filter_option_id = i := by
  unfold toCreateIds
  rw [List.mem_filter]
  constructor
  · rintro ⟨hi, hcond⟩
    refine ⟨hi, fun hex => ?_⟩
    have : i ∈ existingIds productId items st :=
      (mem_existingIds productId items st i).mpr ⟨hi, hex⟩
    simp [this] at hcond
  · rintro ⟨hi, hnot⟩
    refine ⟨hi, ?_⟩
    have : i ∉ existingIds productId items st := by
      intro hmem
      exact hnot ((mem_existingIds productId items st i).mp hmem).2
    simpa using this

/-- Counterexample to C3 as stated: the view-level synchronization
`ProductViewSet._handle_filter_values` (one of the operations the claim
covers, and the one invoked by the product create/update endpoints) does not
leave an already-linked desired option untouched: with product 1 linked to
option 5 through row 10 and desired list `[5]`, the row is deleted and
recreated under a fresh primary key, so row identity is not preserved. -/
theorem filter_sync_counterexample :
    handleFilterValues 1 [5] [some 5] { rows := [⟨10, 1, 5⟩], nextId := 11 }
      = { rows := [⟨11, 1, 5⟩], nextId := 12 } ∧
    ⟨10, 1, 5⟩ ∉ (handleFilterValues 1 [5] [some 5]
      { rows := [⟨10, 1, 5⟩], nextId := 11 }).rows := by
  constructor
  · decide
  · decide

/-- Claim C3 (amended): the serializer-level synchronization
`_sync_filter_values` has exactly the claimed properties — only links whose
option id is not desired are deleted, links are inserted only for desired
ids not already linked, already-linked desired options and other products'
links are untouched with row identity preserved, the product's resulting
option ids carry no duplicates, and running the sync twice with the same
payload leaves the state literally unchanged. (The view-level
`_handle_filter_values` instead deletes and recreates all links; see the
counterexample.) -/
theorem filter_sync_diff_idempotent (productId : Nat) (items : List FilterValueItem)
    (st : LinkState)
    (hids : (parseDesiredIds items).Nodup)
    (hpairs : ((st.rows.filter (fun r => r.product_id == productId)).map
      (·.filter_option_id)).Nodup) :
    (∀ r ∈ st.rows, r.product_id = productId →
        r.filter_option_id ∈ parseDesiredIds items →
        r ∈ (syncFilterValues productId items st).rows) ∧
    (∀ r ∈ st.rows, r.product_id = productId →
        r.filter_option_id ∉ parseDesiredIds items →
        r ∉ (syncFilterValues productId items st).rows) ∧
    (∀ r ∈ st.rows, r.product_id ≠ productId →
        r ∈ (syncFilterValues productId items st).rows) ∧
    (∀ c ∈ (syncFilterValues productId items st).rows, c ∉ st.rows →
        c.product_id = productId ∧ c.filter_option_id ∈ parseDesiredIds items ∧
        ∀ r ∈ st.rows, r.product_id = productId →
          r.filter_option_id ≠ c.filter_option_id) ∧
    (((syncFilterValues productId items st).rows.filter
        (fun r => r.product_id == productId)).map (·.filter_option_id)).Nodup ∧
    syncFilterValues productId items (syncFilterValues productId items st)
      = syncFilterValues productId items st := by
  have hrows : (syncFilterValues productId items st).rows
      = keptRows productId items st ++
        createRows productId st.nextId (toCreateIds productId items st) := rfl
  refine ⟨?_, ?_, ?_, ?_, ?_, ?_⟩
  · intro r hr hp hi
    rw [hrows]
    exact List.mem_append_left _
      ((mem_keptRows productId items st r).mpr ⟨hr, fun _ => hi⟩)
  · intro r hr hp hi hmem
    rw [hrows] at hmem
    rcases List.mem_append.mp hmem with hk | hc
    · exact hi (((mem_keptRows productId items st r).mp hk).2 hp)
    · have ho := createRows_option_mem productId _ _ r hc
      exact hi ((mem_toCreateIds productId items st _).mp ho).1
  · intro r hr hp
    rw [hrows]
    exact List.mem_append_left _
      ((mem_keptRows productId items st r).mpr ⟨hr, fun hcontra => absurd hcontra hp⟩)
  · intro c hc hnew
    rw [hrows] at hc
    rcases List.mem_append.mp hc with hk | hcr
    · exact absurd ((mem_keptRows productId items st c).mp hk).1 hnew
    · have hp := createRows_product productId _ _ c hcr
      have ho := (mem_toCreateIds productId items st _).mp
        (createRows_option_mem productId _ _ c hcr)
      refine ⟨hp, ho.1, ?_⟩
      intro r hr hrp hcontra
      exact ho.2 ⟨r, hr, hrp, hcontra⟩
  · rw [hrows, List.filter_append, List.map_append]
    have hcreated : (createRows productId st.nextId (toCreateIds productId items st)).filter
        (fun r => r.product_id == productId)
          = createRows productId st.nextId (toCreateIds productId items st) := by
      apply List.filter_eq_self.mpr
      intro c hc
      simp [createRows_product productId _ _ c hc]
    rw [hcreated, createRows_map_option]
    apply List.Nodup.append
    · apply List.Nodup.sublist ?_ hpairs
      apply List.Sublist.map
      apply List.Sublist.filter
      exact List.filter_sublist _
    · exact hids.filter _
    · intro i hi1 hi2
      rcases List.mem_map.mp hi1 with ⟨r, hr, rfl⟩
      have hr' := List.mem_filter.mp hr
      have hrk := (mem_keptRows productId items st r).mp hr'.1
      have hrp : r.product_id = productId := by simpa using hr'.2
      exact ((mem_toCreateIds productId items st _).mp hi2).2 ⟨r, hrk.1, hrp, rfl⟩
  · have hkept2 : keptRows productId items (syncFilterValues productId items st)
        = (syncFilterValues productId items st).rows := by
      unfold keptRows
      apply List.filter_eq_self.mpr
      intro r hr
      rw [hrows] at hr
      rcases List.mem_append.mp hr with hk | hc
      · have hrk := (mem_keptRows productId items st r).mp hk
        by_cases hp : r.product_id = productId
        · simp [hp, hrk.2 hp]
        · simp [hp]
      · have hp := createRows_product productId _ _ r hc
        have hi := ((mem_toCreateIds productId items st _).mp
          (createRows_option_mem productId _ _ r hc)).1
        simp [hp, hi]
    have hto2 : toCreateIds productId items (syncFilterValues productId items st) = [] := by
      unfold toCreateIds
      apply List.filter_eq_nil_iff.mpr
      intro i hi
      have hex : i ∈ existingIds productId items (syncFilterValues productId items st) := by
        apply (mem_existingIds productId items _ i).mpr
        refine ⟨hi, ?_⟩
        by_cases hold : ∃ r ∈ st.rows, r.product_id = productId ∧ r.filter_option_id = i
        · obtain ⟨r, hr, hrp, hri⟩ := hold
          refine ⟨r, ?_, hrp, hri⟩
          rw [hrows]
          exact List.mem_append_left _
            ((mem_keptRows productId items st r).mpr ⟨hr, fun _ => hri ▸ hi⟩)
        · have hto : i ∈ toCreateIds productId items st :=
            (mem_toCreateIds productId items st i).mpr ⟨hi, hold⟩
          obtain ⟨c, hc, hco, hcp⟩ := mem_createRows_of_option productId st.nextId _ i hto
          refine ⟨c, ?_, hcp, hco⟩
          rw [hrows]
          exact List.mem_append_right _ hc
      simp [hex]
    calc syncFilterValues productId items (syncFilterValues productId items st)
        = { rows := keptRows productId items (syncFilterValues productId items st) ++
              createRows productId (syncFilterValues productId items st).nextId
                (toCreateIds productId items (syncFilterValues productId items st)),
            nextId := (syncFilterValues productId items st).nextId +
              (toCreateIds productId items (syncFilterValues productId items st)).length } := rfl
      _ = { rows := (syncFilterValues productId items st).rows ++
              createRows productId (syncFilterValues productId items st).nextId [],
            nextId := (syncFilterValues productId items st).nextId +
              ([] : List Int).length } := by rw [hkept2, hto2]
      _ = syncFilterValues productId items st := by simp [createRows]

/-- Witness for C3 (amended) at a concrete state: product 1 linked to options
5 and 6, desired list `[5, 7]`; the existing link for option 5 survives as the
same row and a second sync run changes nothing. -/
theorem filter_sync_diff_idempotent_witness :
    (⟨10, 1, 5⟩ : LinkRow) ∈ (syncFilterValues 1 [⟨some 5, none⟩, ⟨some 7, none⟩]
      { rows := [⟨10, 1, 5⟩, ⟨11, 1, 6⟩, ⟨12, 2, 9⟩], nextId := 13 }).rows ∧
    syncFilterValues 1 [⟨some 5, none⟩, ⟨some 7, none⟩]
        (syncFilterValues 1 [⟨some 5, none⟩, ⟨some 7, none⟩]
          { rows := [⟨10, 1, 5⟩, ⟨11, 1, 6⟩, ⟨12, 2, 9⟩], nextId := 13 })
      = syncFilterValues 1 [⟨some 5, none⟩, ⟨some 7, none⟩]
          { rows := [⟨10, 1, 5⟩, ⟨11, 1, 6⟩, ⟨12, 2, 9⟩], nextId := 13 } := by
  have h := filter_sync_diff_idempotent 1 [⟨some 5, none⟩, ⟨some 7, none⟩]
    { rows := [⟨10, 1, 5⟩, ⟨11, 1, 6⟩, ⟨12, 2, 9⟩], nextId := 13 } (by decide) (by decide)
  exact ⟨h.1 ⟨10, 1, 5⟩ (by decide) rfl (by decide), h.2.2.2.2.2⟩

/-! ## C7 and C8: order capture (`OrderViewSet.create`, `OrderViewSet.mark_paid`,
src/api/views.py; `Order`/`OrderItem`, src/api/models.py) -/

/-- The contact/shipping/payment fields accepted by `OrderSerializer`
(decimal amounts modelled as integer pennies). -/
structure OrderPayload where
  first_name : String
  last_name : String
  email : String
  phone : String
  address : String
  city : String
  postal_code : String
  total_amount : Int
  delivery_charges : Int
  payment_method : String
  payment_id : String
  deriving DecidableEq, Repr

/-- A persisted `Order` row. `status` starts at the model default `pending`. -/
structure OrderRow where
  id : Nat
  user : Option Nat
  first_name : String
  last_name : String
  email : String
  phone : String
  address : String
  city : String
  postal_code : String
  total_amount : Int
  delivery_charges : Int
  payment_method : String
  payment_id : String
  status : String
  deriving DecidableEq, Repr

/-- One line item of the order-creation payload: exactly the keys read by
`OrderViewSet.create` (`selected_variants` kept as an opaque JSON string;
`include_dimension` absent means the Python default `True`). -/
structure OrderItemPayload where
  product_id : Option Nat
  quantity : Int
  price : Int
  size : String
  color : String
  style : String
  dimension : String
  dimension_details : String
  selected_variants : String
  extras_total : Int
  include_dimension : Option Bool
  deriving DecidableEq, Repr

/-- A persisted `OrderItem` row. -/
structure OrderItemRow where
  id : Nat
  order_id : Nat
  product_id : Option Nat
  quantity : Int
  price : Int
  size : String
  color : String
  style : String
  dimension : String
  dimension_details : String
  selected_variants : String
  extras_total : Int
  include_dimension : Bool
  deriving DecidableEq, Repr

/-- The order tables plus auto-increment counters. -/
structure OrderDB where
  orders : List OrderRow
  items : List OrderItemRow
  nextOrderId : Nat
  nextItemId : Nat
  deriving DecidableEq, Repr

/-- The `Order` row written by `serializer.save(user=...)`. -/
def orderRowOf (orderId : Nat) (user : Option Nat) (p : OrderPayload) : OrderRow :=
  { id := orderId, user := user, first_name := p.first_name, last_name := p.last_name,
    email := p.email, phone := p.phone, address := p.address, city := p.city,
    postal_code := p.postal_code, total_amount := p.total_amount,
    delivery_charges := p.delivery_charges, payment_method := p.payment_method,
    payment_id := p.payment_id, status := "pending" }

/-- The `OrderItem` row written by `OrderItem.objects.create(...)` for one
payload item: every field is a verbatim snapshot of the submitted values. -/
def snapshotItem (itemId orderId : Nat) (p : OrderItemPayload) : OrderItemRow :=
  { id := itemId, order_id := orderId, product_id := p.product_id,
    quantity := p.quantity, price := p.price, size := p.size, color := p.color,
    style := p.style, dimension := p.dimension,
    dimension_details := p.dimension_details,
    selected_variants := p.selected_variants, extras_total := p.extras_total,
    include_dimension := p.include_dimension.getD true }

/-- The item-creation loop of `OrderViewSet.create`. -/
def createOrderItems (orderId : Nat) : Nat → List OrderItemPayload → List OrderItemRow
  | _, [] => []
  | itemId, p :: ps => snapshotItem itemId orderId p :: createOrderItems orderId (itemId + 1) ps

/-- Shallow embedding of `OrderViewSet.create`: persist one `Order` linked to
the authenticated user (or anonymous), then one `OrderItem` per line item. -/
def createOrder (user : Option Nat) (p : OrderPayload) (itemPayloads : List OrderItemPayload)
    (db : OrderDB) : OrderDB :=
  { orders := db.orders ++ [orderRowOf db.nextOrderId user p],
    items := db.items ++ createOrderItems db.nextOrderId db.nextItemId itemPayloads,
    nextOrderId := db.nextOrderId + 1,
    nextItemId := db.nextItemId + itemPayloads.length }

/-- Shallow embedding of `OrderViewSet.mark_paid`: set the order's status to
`paid` and save; no other field and no item is touched, and no status check
guards the transition. -/
def markPaid (orderId : Nat) (db : OrderDB) : OrderDB :=
  { db with orders := db.orders.map (fun o =>
      if o.id = orderId then { o with status := "paid" } else o) }

lemma createOrderItems_getElem (orderId : Nat) :
    ∀ (startId : Nat) (ps : List OrderItemPayload) (k : Nat),
      (createOrderItems orderId startId ps)[k]? =
        (ps[k]?).map (fun p => snapshotItem (startId + k) orderId p) := by
  intro startId ps
  induction ps generalizing startId with
  | nil => intro k; simp [createOrderItems]
  | cons p ps ih =>
      intro k
      cases k with
      | zero => simp [createOrderItems]
      | succ k =>
          simp only [createOrderItems, List.getElem?_cons_succ]
          rw [ih (startId + 1) k]
          have harith : startId + 1 + k = startId + (k + 1) := by omega
          rw [harith]

/-- Claim C7: order creation persists exactly one `Order` row (linked to the
authenticated user when present, anonymous otherwise) plus exactly one
`OrderItem` per submitted line item, and the k-th new item is a verbatim
snapshot of the k-th submitted line item. -/
theorem order_creation_semantics (user : Option Nat) (p : OrderPayload)
    (itemPayloads : List OrderItemPayload) (db : OrderDB) :
    (createOrder user p itemPayloads db).orders
        = db.orders ++ [orderRowOf db.nextOrderId user p] ∧
    (orderRowOf db.nextOrderId user p).user = user ∧
    (createOrder user p itemPayloads db).items.length
        = db.items.length + itemPayloads.length ∧
    (∀ k, (createOrder user p itemPayloads db).items[db.items.length + k]? =
      (itemPayloads[k]?).map (fun q => snapshotItem (db.nextItemId + k) db.nextOrderId q)) ∧
    (∀ k, k < db.items.length →
      (createOrder user p itemPayloads db).items[k]? = db.items[k]?) := by
  have hlen : ∀ (oid s : Nat) (ps : List OrderItemPayload),
      (createOrderItems oid s ps).length = ps.length := by
    intro oid s ps
    induction ps generalizing s with
    | nil => rfl
    | cons q ps ih => simp [createOrderItems, ih]
  refine ⟨rfl, rfl, ?_, ?_, ?_⟩
  · simp [createOrder, hlen]
  · intro k
    show (db.items ++ createOrderItems db.nextOrderId db.nextItemId itemPayloads)[db.items.length + k]? = _
    rw [List.getElem?_append_right (by omega)]
    have : db.items.length + k - db.items.length = k := by omega
    rw [this, createOrderItems_getElem]
  · intro k hk
    show (db.items ++ createOrderItems db.nextOrderId db.nextItemId itemPayloads)[k]? = _
    rw [List.getElem?_append_left hk]

/-- Claim C8: `mark_paid` maps every order with the given id to the same row
with only `status` replaced by `paid`, leaves all other orders and every
`OrderItem` untouched, is idempotent, and is total: no status (including
`cancelled`) is rejected. -/
theorem mark_paid_frame (orderId : Nat) (db : OrderDB) :
    (markPaid orderId db).items = db.items ∧
    (markPaid orderId db).orders.length = db.orders.length ∧
    (∀ (k : Nat) (o : OrderRow), db.orders[k]? = some o →
      (markPaid orderId db).orders[k]? =
        some (if o.id = orderId then { o with status := "paid" } else o)) ∧
    markPaid orderId (markPaid orderId db) = markPaid orderId db := by
  refine ⟨rfl, by simp [markPaid], ?_, ?_⟩
  · intro k o hk
    simp [markPaid, List.getElem?_map, hk]
  · unfold markPaid
    simp only [List.map_map]
    congr 1
    apply List.map_congr_left
    intro o _
    by_cases h : o.id = orderId
    · simp [h]
    · simp [h]

/-- Concrete order store for the C8 witness: one cancelled order. -/
def exampleCancelledOrderDB : OrderDB :=
  { orders := [⟨1, none, "a", "b", "e", "p", "ad", "c", "pc",
      130, 0, "card", "", "cancelled"⟩],
    items := [], nextOrderId := 2, nextItemId := 1 }

/-- Witness for C8 at a cancelled order: `mark_paid` still flips the status
to `paid` (no illegal-transition check) and repeating it changes nothing. -/
theorem mark_paid_frame_witness :
    (markPaid 1 exampleCancelledOrderDB).items = exampleCancelledOrderDB.items ∧
    markPaid 1 (markPaid 1 exampleCancelledOrderDB) = markPaid 1 exampleCancelledOrderDB ∧
    (markPaid 1 exampleCancelledOrderDB).orders =
      [⟨1, none, "a", "b", "e", "p", "ad", "c", "pc",
        130, 0, "card", "", "paid"⟩] := by
  have h := mark_paid_frame 1 exampleCancelledOrderDB
  exact ⟨h.1, h.2.2.2, by decide⟩

/-- Concrete order payload for the C7 witness (two items: qty 2 at 50.00 and
qty 1 at 30.00, amounts in pennies). -/
def exampleOrderPayload : OrderPayload :=
  ⟨"Jo", "Doe", "e", "p", "ad", "c", "pc", 13000, 0, "card", ""⟩

/-- The two line items of the C7 witness. -/
def exampleOrderItems : List OrderItemPayload :=
  [⟨some 1, 2, 5000, "", "", "", "", "", "{}", 0, none⟩,
   ⟨some 2, 1, 3000, "", "", "", "", "", "{}", 0, none⟩]

/-- Empty order store for the C7 witness. -/
def emptyOrderDB : OrderDB :=
  { orders := [], items := [], nextOrderId := 1, nextItemId := 1 }

/-- Witness for C7: an anonymous order with two line items persists exactly
one order (user `none`) and two snapshot items. -/
theorem order_creation_semantics_witness :
    (createOrder none exampleOrderPayload exampleOrderItems emptyOrderDB).orders
      = [orderRowOf 1 none exampleOrderPayload] ∧
    (createOrder none exampleOrderPayload exampleOrderItems emptyOrderDB).items.length = 2 ∧
    (createOrder none exampleOrderPayload exampleOrderItems emptyOrderDB).items[0]?
      = some (snapshotItem 1 1 ⟨some 1, 2, 5000, "", "", "", "", "", "{}", 0, none⟩) := by
  have h := order_creation_semantics none exampleOrderPayload exampleOrderItems emptyOrderDB
  refine ⟨by simpa [emptyOrderDB] using h.1, by simpa [emptyOrderDB, exampleOrderItems] using h.2.2.1, ?_⟩
  have h0 := h.2.2.2.1 0
  simpa [emptyOrderDB, exampleOrderItems] using h0

/-! ## C9: review visibility (`ReviewViewSet.create`, src/api/views.py) -/

/-- The review payload fields read by `ReviewSerializer`; `is_visible` is the
client-supplied visibility value, absent when the client did not send one. -/
structure ReviewPayload where
  product : Nat
  name : String
  rating : Int
  comment : String
  is_visible : Option Bool
  deriving DecidableEq, Repr

/-- A persisted `Review` row. -/
structure ReviewRow where
  id : Nat
  product : Nat
  name : String
  rating : Int
  comment : String
  is_visible : Bool
  created_by : Option Nat
  deriving DecidableEq, Repr

/-- The `Review` table plus its auto-increment counter. -/
structure ReviewDB where
  reviews : List ReviewRow
  nextId : Nat
  deriving DecidableEq, Repr

/-- The `Review` row persisted by `ReviewViewSet.create`: a non-staff request
has `is_visible` forced to `False` before validation; a staff request keeps
the supplied value, defaulting to `True` when absent (`setdefault`);
`created_by` is the authenticated user or null. -/
def reviewRowOf (isStaff : Bool) (authUser : Option Nat) (p : ReviewPayload)
    (rid : Nat) : ReviewRow :=
  { id := rid, product := p.product, name := p.name, rating := p.rating,
    comment := p.comment,
    is_visible := if isStaff then p.is_visible.getD true else false,
    created_by := authUser }

/-- Shallow embedding of `ReviewViewSet.create`. -/
def createReview (isStaff : Bool) (authUser : Option Nat) (p : ReviewPayload)
    (db : ReviewDB) : ReviewDB :=
  { reviews := db.reviews ++ [reviewRowOf isStaff authUser p db.nextId],
    nextId := db.nextId + 1 }

/-- Claim C9: a review submitted by a non-staff (including anonymous)
requester is persisted with `is_visible = false` regardless of any supplied
value (including `true`); a staff submission keeps an explicitly supplied
value and defaults to `true` otherwise. Exactly one row is appended and the
existing rows are untouched. -/
theorem review_visibility_semantics (isStaff : Bool) (authUser : Option Nat)
    (p : ReviewPayload) (db : ReviewDB) :
    (createReview isStaff authUser p db).reviews.length = db.reviews.length + 1 ∧
    (createReview isStaff authUser p db).reviews[db.reviews.length]?
      = some (reviewRowOf isStaff authUser p db.nextId) ∧
    (reviewRowOf isStaff authUser p db.nextId).is_visible
      = (if isStaff then p.is_visible.getD true else false) ∧
    (isStaff = false → (reviewRowOf isStaff authUser p db.nextId).is_visible = false) ∧
    (reviewRowOf isStaff authUser p db.nextId).created_by = authUser ∧
    (∀ k, k < db.reviews.length →
      (createReview isStaff authUser p db).reviews[k]? = db.reviews[k]?) := by
  refine ⟨by simp [createReview], ?_, rfl, ?_, rfl, ?_⟩
  · show (db.reviews ++ [_])[db.reviews.length]? = _
    rw [List.getElem?_append_right (by omega)]
    simp
  · intro hstaff
    simp [reviewRowOf, hstaff]
  · intro k hk
    show (db.reviews ++ [_])[k]? = _
    rw [List.getElem?_append_left hk]

/-- Witness for C9: an anonymous submission carrying `is_visible = true` is
persisted hidden; a staff submission with no explicit value is persisted
visible. -/
theorem review_visibility_semantics_witness :
    (reviewRowOf false none ⟨1, "n", 5, "c", some true⟩ 1).is_visible = false ∧
    (createReview false none ⟨1, "n", 5, "c", some true⟩ { reviews := [], nextId := 1 }).reviews
      = [⟨1, 1, "n", 5, "c", false, none⟩] ∧
    (createReview true (some 7) ⟨1, "n", 5, "c", none⟩ { reviews := [], nextId := 1 }).reviews
      = [⟨1, 1, "n", 5, "c", true, some 7⟩] := by
  refine ⟨?_, by decide, by decide⟩
  exact (review_visibility_semantics false none ⟨1, "n", 5, "c", some true⟩
    { reviews := [], nextId := 1 }).2.2.2.1 rfl

/-! ## C5 and C6: variant normalizer (`ProductViewSet._validate_related_data`
and the create/update control flow, src/api/views.py; column widths from
src/api/models.py) -/

/-- A structured validation error: offending field name plus message,
modelling `rest_framework.ValidationError({field: [message]})`. -/
structure VErr where
  field : String
  message : String
  deriving DecidableEq, Repr

/-- Optional leading sign of a numeric literal. -/
def parseSign : List Char → Bool × List Char
  | '+' :: cs => (false, cs)
  | '-' :: cs => (true, cs)
  | cs => (false, cs)

/-- Longest leading run of decimal digits. -/
def splitDigits : List Char → List Char × List Char
  | [] => ([], [])
  | c :: cs =>
      if c.isDigit then
        let (d, r) := splitDigits cs
        (c :: d, r)
      else ([], c :: cs)

/-- Numeric value of a digit run. -/
def digitsToNat (cs : List Char) : Nat :=
  cs.foldl (fun a c => a * 10 + (c.toNat - 48)) 0

/-- Optional exponent part of a numeric literal (`e`/`E`, sign, digits). -/
def parseExponent : List Char → Option (Int × List Char)
  | 'e' :: rest =>
      let (eneg, r1) := parseSign rest
      let (ed, r2) := splitDigits r1
      if ed.isEmpty then none
      else some (if eneg then -(digitsToNat ed : Int) else (digitsToNat ed : Int), r2)
  | 'E' :: rest =>
      let (eneg, r1) := parseSign rest
      let (ed, r2) := splitDigits r1
      if ed.isEmpty then none
      else some (if eneg then -(digitsToNat ed : Int) else (digitsToNat ed : Int), r2)
  | cs => some (0, cs)

/-- Modelled after `decimal.Decimal(text)` (also used for `float(text)`):
surrounding whitespace allowed, then an optional sign, digits with an
optional decimal point and an optional exponent; at least one digit is
required and nothing may follow. The special values NaN/Infinity are not
modelled. Returns the parsed rational, or `none` for invalid input
(`InvalidOperation`). -/
def parseDecimal (s : String) : Option Rat :=
  let cs := (pyStrip s).toList
  let (neg, cs1) := parseSign cs
  let (ipart, cs2) := splitDigits cs1
  let (fpart, cs3) :=
    match cs2 with
    | '.' :: rest => splitDigits rest
    | _ => ([], cs2)
  match parseExponent cs3 with
  | none => none
  | some (e, rest) =>
      if rest.isEmpty && !(ipart.isEmpty && fpart.isEmpty) then
        let mant : Int := digitsToNat (ipart ++ fpart)
        let mantS : Int := if neg then -mant else mant
        some (((mantS : Rat) / ((10 : Rat) ^ fpart.length)) * (10 : Rat) ^ e)
      else none

/-- `ProductImage.url` / `ProductVideo.url` column width. -/
def imageUrlMax : Nat := 1000

/-- `ProductColor.name` column width. -/
def colorNameMax : Nat := 100

/-- `ProductSize.name` column width. -/
def sizeNameMax : Nat := 50

/-- `ProductSize.description` column width. -/
def sizeDescMax : Nat := 255

/-- `ProductStyle.name` column width. -/
def styleNameMax : Nat := 100

/-- `ProductFabric.name` column width. -/
def fabricNameMax : Nat := 100

/-- `ProductFabric.image_url` column width. -/
def fabricUrlMax : Nat := 1000

/-- `ProductMattress.name` column width. -/
def mattressNameMax : Nat := 255

/-- `ProductMattress.image_url` column width. -/
def mattressImageMax : Nat := 1000

/-- `max_style_option_icon_length` from `_validate_related_data`. -/
def styleIconMax : Nat := 200000

/-- Incoming image payload entry (`{"url": ...}`; a missing key reads as ""). -/
structure ImageIn where
  url : String
  deriving DecidableEq, Repr

/-- Incoming video payload entry. -/
structure VideoIn where
  url : String
  deriving DecidableEq, Repr

/-- Incoming color payload entry; `hex_code` is `none` when the key is absent
(Python default `#000000`). -/
structure ColorIn where
  name : String
  hex_code : Option String
  image_url : String
  deriving DecidableEq, Repr

/-- Incoming size payload entry: a bare string (legacy) or an object with
name/description/price_delta; a `none` delta reads as the Python default 0. -/
inductive SizeIn
  | str (value : String)
  | obj (name description : String) (price_delta : Option String)
  deriving DecidableEq, Repr

/-- Incoming style option: a bare string or an object. The object's `label`
models `option.get("label", option.get("name", ""))`; `price_delta` models
`option.get("price_delta", option.get("delta", 0))` with `none` for the
default 0. -/
inductive StyleOptionIn
  | str (value : String)
  | obj (label description icon_url size : String) (sizes : List String)
      (price_delta : Option String)
  deriving DecidableEq, Repr

/-- Incoming style payload entry. -/
structure StyleIn where
  name : String
  icon_url : String
  options : List StyleOptionIn
  is_shared : Bool
  size : Option String
  deriving DecidableEq, Repr

/-- Incoming fabric payload entry. -/
structure FabricIn where
  name : String
  image_url : String
  is_shared : Bool
  colors : List ColorIn
  deriving DecidableEq, Repr

/-- Incoming mattress payload entry; `price` is `none` when absent, and the
strings `""`/`"null"` also mean no price. -/
structure MattressIn where
  name : String
  description : String
  image_url : String
  source_product : Option Nat
  price : Option String
  deriving DecidableEq, Repr

/-- Cleaned color record. -/
structure CleanColor where
  name : String
  hex_code : String
  image_url : String
  deriving DecidableEq, Repr

/-- Cleaned size record. -/
structure CleanSize where
  name : String
  description : String
  price_delta : Rat
  deriving DecidableEq, Repr

/-- Cleaned style option record (bare-string options carry no sizes). -/
structure CleanStyleOption where
  label : String
  description : String
  icon_url : String
  price_delta : Rat
  sizes : List String
  deriving DecidableEq, Repr

/-- Cleaned style record. -/
structure CleanStyle where
  name : String
  icon_url : String
  options : List CleanStyleOption
  is_shared : Bool
  size : Option String
  deriving DecidableEq, Repr

/-- Cleaned fabric record. -/
structure CleanFabric where
  name : String
  image_url : String
  is_shared : Bool
  colors : List CleanColor
  deriving DecidableEq, Repr

/-- Cleaned mattress record. -/
structure CleanMattress where
  name : String
  description : String
  image_url : String
  price : Option Rat
  source_product : Option Nat
  deriving DecidableEq, Repr

/-- `str(col.get("hex_code", "#000000")).strip() or "#000000"`. -/
def cleanHex (hex : Option String) : String :=
  match hex with
  | some h => if pyStrip h = "" then "#000000" else pyStrip h
  | none => "#000000"

/-- A character allowed by the style-name regex `^[A-Za-z0-9._-]+$`. -/
def allowedTokenChar (c : Char) : Bool :=
  c.isAlpha || c.isDigit || c == '.' || c == '_' || c == '-'

/-- Full match of the style-name regex `^[A-Za-z0-9._-]+$`. -/
def matchesNamePattern (s : String) : Bool :=
  !(s.toList.isEmpty) && s.toList.all allowedTokenChar

/-- Python `s.replace(" ", "-")`. -/
def replaceSpaces (s : String) : String :=
  String.mk (s.toList.map (fun c => if c = ' ' then '-' else c))

/-- Python `str(name).strip().replace(" ", "-")`: the style-name (and style
option label) normalization. -/
def styleToken (s : String) : String := replaceSpaces (pyStrip s)

/-- The cleaned sizes list of one style option object:
`[str(s or "").strip() for s in raw_sizes if str(s or "").strip()]`, with a
non-empty single `size` value folded in when not already present. -/
def cleanOptionSizes (sizeVal : String) (sizes : List String) : List String :=
  let cleaned := sizes.filterMap (fun t =>
    if pyStrip t = "" then none else some (pyStrip t))
  if pyStrip sizeVal ≠ "" && !(cleaned.contains (pyStrip sizeVal)) then
    cleaned ++ [pyStrip sizeVal]
  else cleaned

/-- One step of a collection loop of `_validate_related_data`: the entry is
silently skipped, aborts the whole validation with a field-keyed error, or
contributes a cleaned record. -/
inductive StepResult (B : Type)
  | skip
  | fail (e : VErr)
  | keep (b : B)
  deriving DecidableEq, Repr

/-- The shared shape of the seven collection loops of
`_validate_related_data`: process the entries in order, abort at the first
failing entry, and collect the cleaned records of the kept entries. -/
def runValidation {A B : Type} (step : A -> StepResult B) : List A -> Except VErr (List B)
  | [] => .ok []
  | a :: rest =>
      match step a with
      | .skip => runValidation step rest
      | .fail e => .error e
      | .keep b => (runValidation step rest).map (fun cl => b :: cl)

/-- Whether an entry aborts its loop. -/
def stepFails {A B : Type} (step : A -> StepResult B) (a : A) : Bool :=
  match step a with
  | .fail _ => true
  | _ => false

/-- The loop body for one image entry: blank URL skipped, over-long URL
fails keyed `images`, otherwise the trimmed URL is kept. -/
def stepImage (img : ImageIn) : StepResult String :=
  if pyStrip img.url = "" then .skip
  else if (pyStrip img.url).length > imageUrlMax then
    .fail { field := "images", message := "Image URL too long" }
  else .keep (pyStrip img.url)

/-- The loop body for one video entry. -/
def stepVideo (vid : VideoIn) : StepResult String :=
  if pyStrip vid.url = "" then .skip
  else if (pyStrip vid.url).length > imageUrlMax then
    .fail { field := "videos", message := "Video URL too long" }
  else .keep (pyStrip vid.url)

/-- The loop body for one color entry: blank name skipped, over-long name
fails keyed `colors`, the hex code defaults to `#000000`. -/
def stepColor (col : ColorIn) : StepResult CleanColor :=
  if pyStrip col.name = "" then .skip
  else if (pyStrip col.name).length > colorNameMax then
    .fail { field := "colors", message := "Color name too long" }
  else .keep ⟨pyStrip col.name, cleanHex col.hex_code, pyStrip col.image_url⟩

/-- The name/description/raw-delta triple read from one size payload entry
(a bare string carries empty description and the default delta). -/
def sizeFields : SizeIn -> String × String × Option String
  | .str v => (pyStrip v, "", none)
  | .obj n d pd => (pyStrip n, pyStrip d, pd)

/-- The loop body for one size entry: blank value skipped, over-long value
or description fails keyed `sizes`, an unparseable supplied delta fails
keyed `sizes`, an absent delta defaults to 0. -/
def stepSize (sz : SizeIn) : StepResult CleanSize :=
  if (sizeFields sz).1 = "" then .skip
  else if (sizeFields sz).1.length > sizeNameMax then
    .fail { field := "sizes", message := "Size value too long" }
  else if (sizeFields sz).2.1.length > sizeDescMax then
    .fail { field := "sizes", message := "Size description too long" }
  else
    match (sizeFields sz).2.2 with
    | none => .keep ⟨(sizeFields sz).1, (sizeFields sz).2.1, 0⟩
    | some raw =>
        match parseDecimal raw with
        | none => .fail { field := "sizes", message := "Invalid price_delta" }
        | some d => .keep ⟨(sizeFields sz).1, (sizeFields sz).2.1, d⟩

/-- The loop body for one style option: a bare string is trimmed and kept
with no pattern check and no sizes key; an object has its label normalized
and pattern-checked, the icon size-capped (both failing keyed `styles`), and
its delta parsed with silent fallback to 0. -/
def stepStyleOption : StyleOptionIn -> StepResult CleanStyleOption
  | .str v =>
      if pyStrip v = "" then .skip
      else .keep ⟨pyStrip v, "", "", 0, []⟩
  | .obj label desc icon sizeVal sizes pd =>
      if styleToken label = "" then .skip
      else if !(matchesNamePattern (styleToken label)) then
        .fail { field := "styles", message := "Style option has invalid characters" }
      else if (pyStrip icon).length > styleIconMax then
        .fail { field := "styles", message := "Style option icon is too large" }
      else .keep ⟨styleToken label, pyStrip desc, pyStrip icon,
        (match pd with
         | none => 0
         | some raw => (parseDecimal raw).getD 0),
        cleanOptionSizes sizeVal sizes⟩

/-- The loop body for one style entry: blank normalized name skipped;
over-long name, pattern violation and oversized icon fail keyed `styles`;
then the option loop runs and its failure aborts the style loop. -/
def stepStyle (st : StyleIn) : StepResult CleanStyle :=
  if styleToken st.name = "" then .skip
  else if (styleToken st.name).length > styleNameMax then
    .fail { field := "styles", message := "Style name too long" }
  else if !(matchesNamePattern (styleToken st.name)) then
    .fail { field := "styles", message := "Style name contains invalid characters" }
  else if (pyStrip st.icon_url).length > styleIconMax then
    .fail { field := "styles", message := "Style icon is too large" }
  else
    match runValidation stepStyleOption st.options with
    | .error e => .fail e
    | .ok opts => .keep ⟨styleToken st.name, pyStrip st.icon_url,
        opts, st.is_shared, st.size⟩

/-- The loop body for one fabric entry: an entry with neither name nor image
is skipped, over-long name or URL fails keyed `fabrics`, the nested colors
are cleaned like `ProductColor` entries. -/
def stepFabric (f : FabricIn) : StepResult CleanFabric :=
  if pyStrip f.name = "" && pyStrip f.image_url = "" then .skip
  else if (pyStrip f.name).length > fabricNameMax then
    .fail { field := "fabrics", message := "Fabric name too long" }
  else if (pyStrip f.image_url).length > fabricUrlMax then
    .fail { field := "fabrics", message := "Fabric image URL too long" }
  else .keep ⟨pyStrip f.name, pyStrip f.image_url, f.is_shared,
    f.colors.filterMap (fun c =>
      if pyStrip c.name = "" then none
      else some ⟨pyStrip c.name, cleanHex c.hex_code, pyStrip c.image_url⟩)⟩

/-- Whether a supplied mattress price string is considered present
(`raw_price not in (None, "", "null")`). -/
def priceProvided : Option String -> Bool
  | none => false
  | some raw => !(raw == "" || raw == "null")

/-- Python truthiness of the parsed price (`Decimal("0")` is falsy). -/
def priceTruthy : Option Rat -> Bool
  | none => false
  | some v => v != 0

/-- Python truthiness of the optional source-product id (`0` is falsy). -/
def sourceTruthy : Option Nat -> Bool
  | none => false
  | some i => i != 0

/-- The loop body for one mattress entry: an unparseable supplied price
fails keyed `mattresses`, then over-long name/URL fail, then a row with all
falsy fields is dropped, otherwise the row is kept (unresolved source
products are nulled later, silently). -/
def stepMattress (m : MattressIn) : StepResult CleanMattress :=
  match (if priceProvided m.price then
      match parseDecimal (m.price.getD "") with
      | none => Except.error ⟨"mattresses", "Invalid price for mattress"⟩
      | some v => Except.ok (some v)
    else Except.ok (none : Option Rat)) with
  | .error e => .fail e
  | .ok price =>
      if pyStrip m.name != "" && (pyStrip m.name).length > mattressNameMax then
        .fail { field := "mattresses", message := "Mattress name too long" }
      else if pyStrip m.image_url != "" &&
          (pyStrip m.image_url).length > mattressImageMax then
        .fail { field := "mattresses", message := "Mattress image URL too long" }
      else if pyStrip m.name = "" && pyStrip m.description = "" &&
          pyStrip m.image_url = "" && !(priceTruthy price) &&
          !(sourceTruthy m.source_product) then
        .skip
      else .keep ⟨pyStrip m.name, pyStrip m.description, pyStrip m.image_url,
        price, m.source_product⟩

/-- The image loop of `_validate_related_data`. -/
def validateImages (l : List ImageIn) : Except VErr (List String) :=
  runValidation stepImage l

/-- The video loop of `_validate_related_data`. -/
def validateVideos (l : List VideoIn) : Except VErr (List String) :=
  runValidation stepVideo l

/-- The color loop of `_validate_related_data`. -/
def validateColors (l : List ColorIn) : Except VErr (List CleanColor) :=
  runValidation stepColor l

/-- The size loop of `_validate_related_data`. -/
def validateSizes (l : List SizeIn) : Except VErr (List CleanSize) :=
  runValidation stepSize l

/-- The style loop of `_validate_related_data`. -/
def validateStyles (l : List StyleIn) : Except VErr (List CleanStyle) :=
  runValidation stepStyle l

/-- The fabric loop of `_validate_related_data`. -/
def validateFabrics (l : List FabricIn) : Except VErr (List CleanFabric) :=
  runValidation stepFabric l

/-- The mattress loop of `_validate_related_data`. -/
def validateMattresses (l : List MattressIn) : Except VErr (List CleanMattress) :=
  runValidation stepMattress l

/-- The seven nested payload collections of a product write. -/
structure RelatedPayload where
  images : List ImageIn
  videos : List VideoIn
  colors : List ColorIn
  sizes : List SizeIn
  styles : List StyleIn
  fabrics : List FabricIn
  mattresses : List MattressIn
  deriving DecidableEq, Repr

/-- The cleaned collections returned by `_validate_related_data`. -/
structure CleanedRelated where
  images : List String
  videos : List String
  colors : List CleanColor
  sizes : List CleanSize
  styles : List CleanStyle
  fabrics : List CleanFabric
  mattresses : List CleanMattress
  deriving DecidableEq, Repr

/-- Shallow embedding of `_validate_related_data`: the seven collection loops
run in order and the first violation aborts the whole validation. -/
def validateRelatedData (p : RelatedPayload) : Except VErr CleanedRelated := do
  let images ← validateImages p.images
  let videos ← validateVideos p.videos
  let colors ← validateColors p.colors
  let sizes ← validateSizes p.sizes
  let styles ← validateStyles p.styles
  let fabrics ← validateFabrics p.fabrics
  let mattresses ← validateMattresses p.mattresses
  pure ⟨images, videos, colors, sizes, styles, fabrics, mattresses⟩

/-- The variant tables touched by a product write. -/
structure CatalogWriteState where
  productCount : Nat
  imageRows : List String
  videoRows : List String
  colorRows : List CleanColor
  sizeRows : List CleanSize
  styleRows : List CleanStyle
  fabricRows : List CleanFabric
  mattressRows : List CleanMattress
  deriving DecidableEq, Repr

/-- The persistence phase (`serializer.save()` plus `_handle_related_data`):
one product row and all cleaned variant rows are appended. -/
def persistRelated (st : CatalogWriteState) (c : CleanedRelated) : CatalogWriteState :=
  { productCount := st.productCount + 1,
    imageRows := st.imageRows ++ c.images,
    videoRows := st.videoRows ++ c.videos,
    colorRows := st.colorRows ++ c.colors,
    sizeRows := st.sizeRows ++ c.sizes,
    styleRows := st.styleRows ++ c.styles,
    fabricRows := st.fabricRows ++ c.fabrics,
    mattressRows := st.mattressRows ++ c.mattresses }

/-- The control flow of `ProductViewSet.create` (and the corresponding part
of `update`): `_validate_related_data` runs to completion before any
persistence, so a validation error returns the error and produces no new
state. -/
def productWrite (st : CatalogWriteState) (p : RelatedPayload) :
    Except VErr CatalogWriteState :=
  match validateRelatedData p with
  | .error e => .error e
  | .ok c => .ok (persistRelated st c)

lemma runValidation_error_iff {A B : Type} (step : A → StepResult B) (l : List A) :
    (∃ e, runValidation step l = .error e) ↔ l.any (stepFails step) = true := by
  induction l with
  | nil => simp [runValidation]
  | cons a rest ih =>
      rw [List.any_cons]
      unfold runValidation
      cases hstep : step a with
      | skip => simp [stepFails, hstep, ih]
      | fail e => simp [stepFails, hstep]
      | keep b =>
          have hsf : stepFails step a = false := by simp [stepFails, hstep]
          rw [hsf, Bool.false_or]
          cases hrec : runValidation step rest with
          | error e2 =>
              rw [← ih]
              simp [Except.map, hrec]
          | ok cl =>
              rw [← ih]
              simp [Except.map, hrec]

lemma runValidation_error_field {A B : Type} (step : A → StepResult B) (f : String)
    (hf : ∀ a e, step a = .fail e → e.field = f) :
    ∀ (l : List A) (e : VErr), runValidation step l = .error e → e.field = f := by
  intro l
  induction l with
  | nil =>
      intro e h
      simp [runValidation] at h
  | cons a rest ih =>
      intro e h
      unfold runValidation at h
      cases hstep : step a with
      | skip =>
          rw [hstep] at h
          exact ih e h
      | fail e2 =>
          rw [hstep] at h
          simp only at h
          cases h
          exact hf a _ hstep
      | keep b =>
          rw [hstep] at h
          simp only at h
          cases hrec : runValidation step rest with
          | error e2 =>
              rw [hrec] at h
              simp only [Except.map] at h
              cases h
              exact ih _ hrec
          | ok cl =>
              rw [hrec] at h
              simp [Except.map] at h

/-- C5's image violation, stated declaratively: a non-blank URL longer than
the storage column. -/
def badImage (i : ImageIn) : Bool :=
  pyStrip i.url != "" && decide ((pyStrip i.url).length > imageUrlMax)

/-- C5's video violation. -/
def badVideo (v : VideoIn) : Bool :=
  pyStrip v.url != "" && decide ((pyStrip v.url).length > imageUrlMax)

/-- C5's color violation: a non-blank over-long name. -/
def badColor (c : ColorIn) : Bool :=
  pyStrip c.name != "" && decide ((pyStrip c.name).length > colorNameMax)

/-- C5's size violation: a non-blank value that is over-long, carries an
over-long description, or carries an unparseable price delta. -/
def badSize (s : SizeIn) : Bool :=
  (sizeFields s).1 != "" &&
    (decide ((sizeFields s).1.length > sizeNameMax) ||
     decide ((sizeFields s).2.1.length > sizeDescMax) ||
     (match (sizeFields s).2.2 with
      | none => false
      | some raw => (parseDecimal raw).isNone))

/-- C5's style-option violation: an object option whose normalized label is
non-blank and either violates the name pattern or carries an oversized icon. -/
def badStyleOption : StyleOptionIn → Bool
  | .str _ => false
  | .obj label _ icon _ _ _ =>
      styleToken label != "" &&
        (!(matchesNamePattern (styleToken label)) ||
          decide ((pyStrip icon).length > styleIconMax))

/-- C5's style violation: a non-blank normalized name that is over-long,
violates the name pattern, carries an oversized icon, or contains a
violating option. -/
def badStyle (st : StyleIn) : Bool :=
  styleToken st.name != "" &&
    (decide ((styleToken st.name).length > styleNameMax) ||
     !(matchesNamePattern (styleToken st.name)) ||
     decide ((pyStrip st.icon_url).length > styleIconMax) ||
     st.options.any badStyleOption)

/-- C5's fabric violation: an entry with a name or image where the name or
the image URL is over-long. -/
def badFabric (f : FabricIn) : Bool :=
  !(pyStrip f.name == "" && pyStrip f.image_url == "") &&
    (decide ((pyStrip f.name).length > fabricNameMax) ||
     decide ((pyStrip f.image_url).length > fabricUrlMax))

/-- C5's mattress violation: an unparseable supplied price, or a non-blank
over-long name or image URL. -/
def badMattress (m : MattressIn) : Bool :=
  (priceProvided m.price && (parseDecimal (m.price.getD "")).isNone) ||
  decide (¬pyStrip m.name = "" ∧ (pyStrip m.name).length > mattressNameMax) ||
  decide (¬pyStrip m.image_url = "" ∧ (pyStrip m.image_url).length > mattressImageMax)

lemma stepFails_stepImage : stepFails stepImage = badImage := by
  funext i
  unfold stepFails stepImage badImage
  by_cases h1 : pyStrip i.url = ""
  · simp [h1]
  · by_cases h2 : (pyStrip i.url).length > imageUrlMax
    · simp [h1, h2]
    · simp [h1, h2]

lemma stepFails_stepVideo : stepFails stepVideo = badVideo := by
  funext v
  unfold stepFails stepVideo badVideo
  by_cases h1 : pyStrip v.url = ""
  · simp [h1]
  · by_cases h2 : (pyStrip v.url).length > imageUrlMax
    · simp [h1, h2]
    · simp [h1, h2]

lemma stepFails_stepColor : stepFails stepColor = badColor := by
  funext c
  unfold stepFails stepColor badColor
  by_cases h1 : pyStrip c.name = ""
  · simp [h1]
  · by_cases h2 : (pyStrip c.name).length > colorNameMax
    · simp [h1, h2]
    · simp [h1, h2]

lemma stepFails_stepSize : stepFails stepSize = badSize := by
  funext s
  unfold stepFails stepSize badSize
  by_cases h1 : (sizeFields s).1 = ""
  · simp [h1]
  · by_cases h2 : (sizeFields s).1.length > sizeNameMax
    · simp [h1, h2]
    · by_cases h3 : (sizeFields s).2.1.length > sizeDescMax
      · simp [h1, h2, h3]
      · cases hpd : (sizeFields s).2.2 with
        | none => simp [h1, h2, h3, hpd]
        | some raw =>
            cases hparse : parseDecimal raw with
            | none => simp [h1, h2, h3, hpd, hparse]
            | some d => simp [h1, h2, h3, hpd, hparse]

lemma stepFails_stepStyleOption : stepFails stepStyleOption = badStyleOption := by
  funext o
  cases o with
  | str v =>
      unfold stepFails stepStyleOption badStyleOption
      by_cases h1 : pyStrip v = ""
      · simp [h1]
      · simp [h1]
  | obj label desc icon sizeVal sizes pd =>
      unfold stepFails stepStyleOption badStyleOption
      by_cases h1 : styleToken label = ""
      · simp [h1]
      · by_cases h2 : matchesNamePattern (styleToken label)
        · by_cases h3 : (pyStrip icon).length > styleIconMax
          · simp [h1, h2, h3]
          · simp [h1, h2, h3]
        · simp [h1, h2]

lemma stepFails_stepStyle : stepFails stepStyle = badStyle := by
  funext st
  unfold stepFails stepStyle badStyle
  by_cases h1 : styleToken st.name = ""
  · simp [h1]
  · by_cases h2 : (styleToken st.name).length > styleNameMax
    · simp [h1, h2]
    · by_cases h3 : matchesNamePattern (styleToken st.name)
      · by_cases h4 : (pyStrip st.icon_url).length > styleIconMax
        · simp [h1, h2, h3, h4]
        · cases hopts : runValidation stepStyleOption st.options with
          | error e =>
              have hany : st.options.any badStyleOption = true := by
                rw [← stepFails_stepStyleOption]
                exact (runValidation_error_iff stepStyleOption st.options).mp ⟨e, hopts⟩
              simp [h1, h2, h3, h4, hopts, hany]
          | ok opts =>
              have hany : st.options.any badStyleOption = false := by
                rw [← stepFails_stepStyleOption]
                by_contra hcontra
                have := (runValidation_error_iff stepStyleOption st.options).mpr
                  (by simpa using hcontra)
                rw [hopts] at this
                obtain ⟨e, he⟩ := this
                cases he
              simp [h1, h2, h3, h4, hopts, hany]
      · simp [h1, h2, h3]

lemma stepFails_stepFabric : stepFails stepFabric = badFabric := by
  funext f
  unfold stepFails stepFabric badFabric
  by_cases h1 : pyStrip f.name = ""
  · by_cases h2 : pyStrip f.image_url = ""
    · simp [h1, h2]
    · by_cases h3 : (pyStrip f.image_url).length > fabricUrlMax
      · simp [h1, h2, h3, fabricNameMax]
      · simp [h1, h2, h3, fabricNameMax]
  · by_cases h2' : (pyStrip f.name).length > fabricNameMax
    · by_cases h2 : pyStrip f.image_url = ""
      · simp [h1, h2, h2']
      · simp [h1, h2, h2']
    · by_cases h3 : (pyStrip f.image_url).length > fabricUrlMax
      · simp [h1, h2', h3]
      · simp [h1, h2', h3]

lemma stepFails_stepMattress : stepFails stepMattress = badMattress := by
  funext m
  unfold stepFails stepMattress badMattress
  by_cases h1 : priceProvided m.price = true
  · cases hparse : parseDecimal (m.price.getD "") with
    | none => simp [h1, hparse]
    | some v =>
        simp only [h1, if_true, hparse]
        by_cases hb2 : (pyStrip m.name != "" &&
            decide ((pyStrip m.name).length > mattressNameMax)) = true
        · rw [if_pos hb2]
          simp only [Bool.and_eq_true, bne_iff_ne, decide_eq_true_eq] at hb2
          simp [hb2.1, hb2.2]
        · rw [if_neg hb2]
          simp only [Bool.and_eq_true, bne_iff_ne, decide_eq_true_eq, not_and] at hb2
          by_cases hb3 : (pyStrip m.image_url != "" &&
              decide ((pyStrip m.image_url).length > mattressImageMax)) = true
          · rw [if_pos hb3]
            simp only [Bool.and_eq_true, bne_iff_ne, decide_eq_true_eq] at hb3
            simp [hb3.1, hb3.2]
          · rw [if_neg hb3]
            simp only [Bool.and_eq_true, bne_iff_ne, decide_eq_true_eq, not_and] at hb3
            have hr2 : decide (¬pyStrip m.name = "" ∧
                (pyStrip m.name).length > mattressNameMax) = false := by
              by_cases hn : pyStrip m.name = ""
              · simp [hn]
              · simp [hn, hb2 hn]
            have hr3 : decide (¬pyStrip m.image_url = "" ∧
                (pyStrip m.image_url).length > mattressImageMax) = false := by
              by_cases hn : pyStrip m.image_url = ""
              · simp [hn]
              · simp [hn, hb3 hn]
            split <;> simp_all [ite_eq_iff]
  · have h1' : priceProvided m.price = false := by simpa using h1
    simp only [h1', Bool.false_eq_true, if_false]
    by_cases hb2 : (pyStrip m.name != "" &&
        decide ((pyStrip m.name).length > mattressNameMax)) = true
    · rw [if_pos hb2]
      simp only [Bool.and_eq_true, bne_iff_ne, decide_eq_true_eq] at hb2
      simp [hb2.1, hb2.2]
    · rw [if_neg hb2]
      simp only [Bool.and_eq_true, bne_iff_ne, decide_eq_true_eq, not_and] at hb2
      by_cases hb3 : (pyStrip m.image_url != "" &&
          decide ((pyStrip m.image_url).length > mattressImageMax)) = true
      · rw [if_pos hb3]
        simp only [Bool.and_eq_true, bne_iff_ne, decide_eq_true_eq] at hb3
        simp [hb3.1, hb3.2]
      · rw [if_neg hb3]
        simp only [Bool.and_eq_true, bne_iff_ne, decide_eq_true_eq, not_and] at hb3
        have hr2 : decide (¬pyStrip m.name = "" ∧
            (pyStrip m.name).length > mattressNameMax) = false := by
          by_cases hn : pyStrip m.name = ""
          · simp [hn]
          · simp [hn, hb2 hn]
        have hr3 : decide (¬pyStrip m.image_url = "" ∧
            (pyStrip m.image_url).length > mattressImageMax) = false := by
          by_cases hn : pyStrip m.image_url = ""
          · simp [hn]
          · simp [hn, hb3 hn]
        split <;> simp_all [ite_eq_iff]

/-- The field names under which the payload carries at least one violation:
the claim-side enumeration of C5. -/
def violationFields (p : RelatedPayload) : List String :=
  (if p.images.any badImage = true then ["images"] else []) ++
  (if p.videos.any badVideo = true then ["videos"] else []) ++
  (if p.colors.any badColor = true then ["colors"] else []) ++
  (if p.sizes.any badSize = true then ["sizes"] else []) ++
  (if p.styles.any badStyle = true then ["styles"] else []) ++
  (if p.fabrics.any badFabric = true then ["fabrics"] else []) ++
  (if p.mattresses.any badMattress = true then ["mattresses"] else [])

lemma mem_flag (b : Bool) (x f : String) :
    f ∈ (if b = true then [x] else []) ↔ b = true ∧ f = x := by
  cases b <;> simp

lemma mem_violationFields (p : RelatedPayload) (f : String) :
    f ∈ violationFields p ↔
      (p.images.any badImage = true ∧ f = "images") ∨
      (p.videos.any badVideo = true ∧ f = "videos") ∨
      (p.colors.any badColor = true ∧ f = "colors") ∨
      (p.sizes.any badSize = true ∧ f = "sizes") ∨
      (p.styles.any badStyle = true ∧ f = "styles") ∨
      (p.fabrics.any badFabric = true ∧ f = "fabrics") ∨
      (p.mattresses.any badMattress = true ∧ f = "mattresses") := by
  unfold violationFields
  simp only [List.mem_append, mem_flag]
  tauto

lemma validateRelatedData_error_decomp (p : RelatedPayload) (e : VErr)
    (h : validateRelatedData p = .error e) :
    validateImages p.images = .error e ∨ validateVideos p.videos = .error e ∨
    validateColors p.colors = .error e ∨ validateSizes p.sizes = .error e ∨
    validateStyles p.styles = .error e ∨ validateFabrics p.fabrics = .error e ∨
    validateMattresses p.mattresses = .error e := by
  unfold validateRelatedData at h
  cases h1 : validateImages p.images with
  | error e1 =>
      rw [h1] at h
      simp only [Bind.bind, Except.bind] at h
      cases h
      exact Or.inl rfl
  | ok r1 =>
  rw [h1] at h
  simp only [Bind.bind, Except.bind] at h
  cases h2 : validateVideos p.videos with
  | error e2 =>
      rw [h2] at h
      simp only [Bind.bind, Except.bind] at h
      cases h
      exact Or.inr (Or.inl rfl)
  | ok r2 =>
  rw [h2] at h
  simp only [Bind.bind, Except.bind] at h
  cases h3 : validateColors p.colors with
  | error e3 =>
      rw [h3] at h
      simp only [Bind.bind, Except.bind] at h
      cases h
      exact Or.inr (Or.inr (Or.inl rfl))
  | ok r3 =>
  rw [h3] at h
  simp only [Bind.bind, Except.bind] at h
  cases h4 : validateSizes p.sizes with
  | error e4 =>
      rw [h4] at h
      simp only [Bind.bind, Except.bind] at h
      cases h
      exact Or.inr (Or.inr (Or.inr (Or.inl rfl)))
  | ok r4 =>
  rw [h4] at h
  simp only [Bind.bind, Except.bind] at h
  cases h5 : validateStyles p.styles with
  | error e5 =>
      rw [h5] at h
      simp only [Bind.bind, Except.bind] at h
      cases h
      exact Or.inr (Or.inr (Or.inr (Or.inr (Or.inl rfl))))
  | ok r5 =>
  rw [h5] at h
  simp only [Bind.bind, Except.bind] at h
  cases h6 : validateFabrics p.fabrics with
  | error e6 =>
      rw [h6] at h
      simp only [Bind.bind, Except.bind] at h
      cases h
      exact Or.inr (Or.inr (Or.inr (Or.inr (Or.inr (Or.inl rfl)))))
  | ok r6 =>
  rw [h6] at h
  simp only [Bind.bind, Except.bind] at h
  cases h7 : validateMattresses p.mattresses with
  | error e7 =>
      rw [h7] at h
      simp only [Bind.bind, Except.bind] at h
      cases h
      exact Or.inr (Or.inr (Or.inr (Or.inr (Or.inr (Or.inr rfl)))))
  | ok r7 =>
      rw [h7] at h
      simp only [Bind.bind, Except.bind] at h
      cases h

lemma validateRelatedData_error_exists (p : RelatedPayload)
    (h : (∃ e, validateImages p.images = .error e) ∨
         (∃ e, validateVideos p.videos = .error e) ∨
         (∃ e, validateColors p.colors = .error e) ∨
         (∃ e, validateSizes p.sizes = .error e) ∨
         (∃ e, validateStyles p.styles = .error e) ∨
         (∃ e, validateFabrics p.fabrics = .error e) ∨
         (∃ e, validateMattresses p.mattresses = .error e)) :
    ∃ e, validateRelatedData p = .error e := by
  unfold validateRelatedData
  cases h1 : validateImages p.images with
  | error e1 =>
      refine ⟨e1, ?_⟩
      simp [Bind.bind, Except.bind]
  | ok r1 =>
  simp only [Bind.bind, Except.bind]
  rcases h with ⟨e, he⟩ | h
  · rw [h1] at he
    cases he
  cases h2 : validateVideos p.videos with
  | error e2 =>
      refine ⟨e2, ?_⟩
      simp [Bind.bind, Except.bind]
  | ok r2 =>
  rcases h with ⟨e, he⟩ | h
  · rw [h2] at he
    cases he
  cases h3 : validateColors p.colors with
  | error e3 =>
      refine ⟨e3, ?_⟩
      simp [Bind.bind, Except.bind]
  | ok r3 =>
  rcases h with ⟨e, he⟩ | h
  · rw [h3] at he
    cases he
  cases h4 : validateSizes p.sizes with
  | error e4 =>
      refine ⟨e4, ?_⟩
      simp [Bind.bind, Except.bind]
  | ok r4 =>
  rcases h with ⟨e, he⟩ | h
  · rw [h4] at he
    cases he
  cases h5 : validateStyles p.styles with
  | error e5 =>
      refine ⟨e5, ?_⟩
      simp [Bind.bind, Except.bind]
  | ok r5 =>
  rcases h with ⟨e, he⟩ | h
  · rw [h5] at he
    cases he
  cases h6 : validateFabrics p.fabrics with
  | error e6 =>
      refine ⟨e6, ?_⟩
      simp [Bind.bind, Except.bind]
  | ok r6 =>
  rcases h with ⟨e, he⟩ | ⟨e, he⟩
  · rw [h6] at he
    cases he
  cases h7 : validateMattresses p.mattresses with
  | error e7 =>
      refine ⟨e7, ?_⟩
      simp [Bind.bind, Except.bind]
  | ok r7 =>
      rw [h7] at he
      cases he

lemma stepImage_fail_field : ∀ (a : ImageIn) (e : VErr),
    stepImage a = .fail e → e.field = "images" := by
  intro a e h
  unfold stepImage at h
  split at h
  · cases h
  · split at h
    · cases h
      rfl
    · cases h

lemma stepVideo_fail_field : ∀ (a : VideoIn) (e : VErr),
    stepVideo a = .fail e → e.field = "videos" := by
  intro a e h
  unfold stepVideo at h
  split at h
  · cases h
  · split at h
    · cases h
      rfl
    · cases h

lemma stepColor_fail_field : ∀ (a : ColorIn) (e : VErr),
    stepColor a = .fail e → e.field = "colors" := by
  intro a e h
  unfold stepColor at h
  split at h
  · cases h
  · split at h
    · cases h
      rfl
    · cases h

lemma stepSize_fail_field : ∀ (a : SizeIn) (e : VErr),
    stepSize a = .fail e → e.field = "sizes" := by
  intro a e h
  unfold stepSize at h
  split at h
  · cases h
  · split at h
    · cases h
      rfl
    · split at h
      · cases h
        rfl
      · split at h
        · cases h
        · split at h
          · cases h
            rfl
          · cases h

lemma stepStyleOption_fail_field : ∀ (a : StyleOptionIn) (e : VErr),
    stepStyleOption a = .fail e → e.field = "styles" := by
  intro a e h
  cases a with
  | str v =>
      simp only [stepStyleOption] at h
      by_cases h1 : pyStrip v = ""
      · rw [if_pos h1] at h
        cases h
      · rw [if_neg h1] at h
        cases h
  | obj label desc icon sizeVal sizes pd =>
      simp only [stepStyleOption] at h
      by_cases h1 : styleToken label = ""
      · rw [if_pos h1] at h
        cases h
      · rw [if_neg h1] at h
        by_cases h2 : (!matchesNamePattern (styleToken label)) = true
        · rw [if_pos h2] at h
          cases h
          rfl
        · rw [if_neg h2] at h
          by_cases h3 : (pyStrip icon).length > styleIconMax
          · rw [if_pos h3] at h
            cases h
            rfl
          · rw [if_neg h3] at h
            cases h

lemma stepStyle_fail_field : ∀ (a : StyleIn) (e : VErr),
    stepStyle a = .fail e → e.field = "styles" := by
  intro a e h
  unfold stepStyle at h
  split at h
  · cases h
  · split at h
    · cases h
      rfl
    · split at h
      · cases h
        rfl
      · split at h
        · cases h
          rfl
        · split at h
          · rename_i e2 heq
            cases h
            exact runValidation_error_field stepStyleOption "styles"
              stepStyleOption_fail_field _ _ heq
          · cases h

lemma stepFabric_fail_field : ∀ (a : FabricIn) (e : VErr),
    stepFabric a = .fail e → e.field = "fabrics" := by
  intro a e h
  unfold stepFabric at h
  split at h
  · cases h
  · split at h
    · cases h
      rfl
    · split at h
      · cases h
        rfl
      · cases h

lemma stepMattress_fail_field : ∀ (a : MattressIn) (e : VErr),
    stepMattress a = .fail e → e.field = "mattresses" := by
  intro a e h
  unfold stepMattress at h
  split at h
  · rename_i e2 heq
    cases h
    split at heq
    · split at heq
      · cases heq
        rfl
      · cases heq
    · cases heq
  · split at h
    · cases h
      rfl
    · split at h
      · cases h
        rfl
      · split at h
        · cases h
        · cases h

/-- Claim C5: a product write whose nested variant payloads contain a
length/type violation (over-long image/video/fabric URL, over-long
color/size/style/fabric/mattress name or size description, unparseable size
price delta or mattress price, invalid style name or option label, oversized
style or option icon) fails validation with a structured error keyed by the
offending collection's field name; a validation error arises exactly when
some violation is present; and a failing write persists nothing: the whole
write returns the error and no new state, because `_validate_related_data`
runs to completion before any persistence begins. -/
theorem variant_validation_all_or_nothing (st : CatalogWriteState) (p : RelatedPayload) :
    (∀ e, validateRelatedData p = .error e → e.field ∈ violationFields p) ∧
    ((∃ e, validateRelatedData p = .error e) ↔ violationFields p ≠ []) ∧
    (∀ e, validateRelatedData p = .error e → productWrite st p = .error e) := by
  have hiffI : (∃ e, validateImages p.images = .error e) ↔ p.images.any badImage = true := by
    rw [← stepFails_stepImage]
    exact runValidation_error_iff _ _
  have hiffV : (∃ e, validateVideos p.videos = .error e) ↔ p.videos.any badVideo = true := by
    rw [← stepFails_stepVideo]
    exact runValidation_error_iff _ _
  have hiffC : (∃ e, validateColors p.colors = .error e) ↔ p.colors.any badColor = true := by
    rw [← stepFails_stepColor]
    exact runValidation_error_iff _ _
  have hiffS : (∃ e, validateSizes p.sizes = .error e) ↔ p.sizes.any badSize = true := by
    rw [← stepFails_stepSize]
    exact runValidation_error_iff _ _
  have hiffY : (∃ e, validateStyles p.styles = .error e) ↔ p.styles.any badStyle = true := by
    rw [← stepFails_stepStyle]
    exact runValidation_error_iff _ _
  have hiffF : (∃ e, validateFabrics p.fabrics = .error e) ↔
      p.fabrics.any badFabric = true := by
    rw [← stepFails_stepFabric]
    exact runValidation_error_iff _ _
  have hiffM : (∃ e, validateMattresses p.mattresses = .error e) ↔
      p.mattresses.any badMattress = true := by
    rw [← stepFails_stepMattress]
    exact runValidation_error_iff _ _
  have hfield : ∀ e, validateRelatedData p = .error e → e.field ∈ violationFields p := by
    intro e he
    rw [mem_violationFields]
    rcases validateRelatedData_error_decomp p e he with h|h|h|h|h|h|h
    · exact Or.inl ⟨hiffI.mp ⟨e, h⟩,
        runValidation_error_field stepImage "images" stepImage_fail_field _ e h⟩
    · exact Or.inr (Or.inl ⟨hiffV.mp ⟨e, h⟩,
        runValidation_error_field stepVideo "videos" stepVideo_fail_field _ e h⟩)
    · exact Or.inr (Or.inr (Or.inl ⟨hiffC.mp ⟨e, h⟩,
        runValidation_error_field stepColor "colors" stepColor_fail_field _ e h⟩))
    · exact Or.inr (Or.inr (Or.inr (Or.inl ⟨hiffS.mp ⟨e, h⟩,
        runValidation_error_field stepSize "sizes" stepSize_fail_field _ e h⟩)))
    · exact Or.inr (Or.inr (Or.inr (Or.inr (Or.inl ⟨hiffY.mp ⟨e, h⟩,
        runValidation_error_field stepStyle "styles" stepStyle_fail_field _ e h⟩))))
    · exact Or.inr (Or.inr (Or.inr (Or.inr (Or.inr (Or.inl ⟨hiffF.mp ⟨e, h⟩,
        runValidation_error_field stepFabric "fabrics" stepFabric_fail_field _ e h⟩)))))
    · exact Or.inr (Or.inr (Or.inr (Or.inr (Or.inr (Or.inr ⟨hiffM.mp ⟨e, h⟩,
        runValidation_error_field stepMattress "mattresses" stepMattress_fail_field _ e h⟩)))))
  refine ⟨hfield, ⟨?_, ?_⟩, ?_⟩
  · rintro ⟨e, he⟩ hnil
    have := hfield e he
    rw [hnil] at this
    cases this
  · intro hne
    apply validateRelatedData_error_exists
    by_cases hI : p.images.any badImage = true
    · exact Or.inl (hiffI.mpr hI)
    by_cases hV : p.videos.any badVideo = true
    · exact Or.inr (Or.inl (hiffV.mpr hV))
    by_cases hC : p.colors.any badColor = true
    · exact Or.inr (Or.inr (Or.inl (hiffC.mpr hC)))
    by_cases hS : p.sizes.any badSize = true
    · exact Or.inr (Or.inr (Or.inr (Or.inl (hiffS.mpr hS))))
    by_cases hY : p.styles.any badStyle = true
    · exact Or.inr (Or.inr (Or.inr (Or.inr (Or.inl (hiffY.mpr hY)))))
    by_cases hF : p.fabrics.any badFabric = true
    · exact Or.inr (Or.inr (Or.inr (Or.inr (Or.inr (Or.inl (hiffF.mpr hF))))))
    by_cases hM : p.mattresses.any badMattress = true
    · exact Or.inr (Or.inr (Or.inr (Or.inr (Or.inr (Or.inr (hiffM.mpr hM))))))
    exfalso
    apply hne
    unfold violationFields
    simp only [hI, hV, hC, hS, hY, hF, hM, if_false]
    rfl
  · intro e he
    unfold productWrite
    rw [he]

/-- Empty variant store for the C5 witness. -/
def emptyCatalogWriteState : CatalogWriteState :=
  { productCount := 0, imageRows := [], videoRows := [], colorRows := [],
    sizeRows := [], styleRows := [], fabricRows := [], mattressRows := [] }

/-- Concrete payload for the C5 witness: a single color whose name is 101
characters long (over the 100-character column). -/
def overlongColorPayload : RelatedPayload :=
  { images := [], videos := [], colors := [⟨String.mk (List.replicate 101 'x'), none, ""⟩],
    sizes := [], styles := [], fabrics := [], mattresses := [] }

/-- Witness for C5: the over-long color name payload carries exactly the
`colors` violation, validation fails, and the failed write persists nothing. -/
theorem variant_validation_all_or_nothing_witness :
    violationFields overlongColorPayload = ["colors"] ∧
    (∃ e, validateRelatedData overlongColorPayload = .error e) ∧
    (∀ e, validateRelatedData overlongColorPayload = .error e →
      productWrite emptyCatalogWriteState overlongColorPayload = .error e) := by
  refine ⟨by decide, ?_, ?_⟩
  · exact (variant_validation_all_or_nothing emptyCatalogWriteState
      overlongColorPayload).2.1.mpr (by decide)
  · exact (variant_validation_all_or_nothing emptyCatalogWriteState
      overlongColorPayload).2.2

/-- The allowed character set exactly as claim C6 states it: letters,
digits, dashes or underscores (no dot). -/
def claimedAllowedChar (c : Char) : Bool :=
  c.isAlpha || c.isDigit || c == '-' || c == '_'

/-- Counterexample to C6 as stated: the style name `v1.2` contains a
character (the dot) outside the claim's allowed set of letters, digits,
dashes and underscores, yet the code accepts it unchanged, because the
actual regex `^[A-Za-z0-9._-]+$` also allows dots. -/
theorem style_name_dot_counterexample :
    validateStyles [⟨"v1.2", "", [], false, none⟩]
      = .ok [⟨"v1.2", "", [], false, none⟩] ∧
    ("v1.2".toList.all claimedAllowedChar) = false := by
  constructor
  · rfl
  · decide

/-- Claim C6 (amended): a style name is normalized by trimming and replacing
each space with a dash; a token that fits the name column is accepted
exactly when it is non-empty and contains only letters, digits, dots,
dashes or underscores; a token with a character outside that set is
rejected with a validation error keyed `styles`; a name that normalizes to
the empty token is silently dropped. -/
theorem style_name_validation (name : String)
    (hlen : (styleToken name).length ≤ styleNameMax) :
    (styleToken name ≠ "" → matchesNamePattern (styleToken name) = true →
      validateStyles [⟨name, "", [], false, none⟩]
        = .ok [⟨styleToken name, "", [], false, none⟩]) ∧
    (styleToken name ≠ "" → matchesNamePattern (styleToken name) = false →
      validateStyles [⟨name, "", [], false, none⟩]
        = .error ⟨"styles", "Style name contains invalid characters"⟩) ∧
    (styleToken name = "" → validateStyles [⟨name, "", [], false, none⟩] = .ok []) ∧
    (matchesNamePattern (styleToken name) = true ↔
      styleToken name ≠ "" ∧ (styleToken name).toList.all allowedTokenChar = true) := by
  have hicon : ¬((pyStrip "").length > styleIconMax) := by decide
  refine ⟨?_, ?_, ?_, ?_⟩
  · intro hne hpat
    show runValidation stepStyle _ = _
    unfold runValidation stepStyle
    dsimp only
    rw [if_neg hne, if_neg (by omega), if_neg (by simp [hpat]), if_neg hicon]
    rfl
  · intro hne hpat
    show runValidation stepStyle _ = _
    unfold runValidation stepStyle
    dsimp only
    rw [if_neg hne, if_neg (by omega), if_pos (by simp [hpat])]
  · intro hempty
    show runValidation stepStyle _ = _
    unfold runValidation stepStyle
    dsimp only
    rw [if_pos hempty]
    rfl
  · unfold matchesNamePattern
    constructor
    · intro h
      have h' := (Bool.and_eq_true _ _).mp h
      refine ⟨?_, h'.2⟩
      intro hcontra
      rw [hcontra] at h'
      simp at h'
    · rintro ⟨hne, hall⟩
      apply (Bool.and_eq_true _ _).mpr
      refine ⟨?_, hall⟩
      simp only [Bool.not_eq_true']
      cases hl : (styleToken name).toList with
      | nil =>
          exfalso
          apply hne
          apply String.ext
          exact hl
      | cons c cs => simp [hl]

/-- Witness for C6 (amended): `Oak Finish` is accepted as the token
`Oak-Finish`, and a name containing `@` is rejected with a `styles` error. -/
theorem style_name_validation_witness :
    validateStyles [⟨"Oak Finish", "", [], false, none⟩]
      = .ok [⟨"Oak-Finish", "", [], false, none⟩] ∧
    validateStyles [⟨"Bad@Name", "", [], false, none⟩]
      = .error ⟨"styles", "Style name contains invalid characters"⟩ := by
  constructor
  · have h := (style_name_validation "Oak Finish" (by decide)).1 (by decide) (by decide)
    rw [show styleToken "Oak Finish" = "Oak-Finish" by decide] at h
    exact h
  · exact (style_name_validation "Bad@Name" (by decide)).2.1 (by decide) (by decide)

/-! ## C4: category filter listing (`CategoryFiltersView.get`, src/api/views.py;
`CategoryFilter` model, src/api/models.py) -/

/-- Row of the `Category` model (fields read by `CategoryFiltersView`). -/
structure CategoryRow where
  id : Nat
  slug : String
  deriving DecidableEq, Repr

/-- Row of the `SubCategory` model. -/
structure SubCategoryRow where
  id : Nat
  category_id : Nat
  deriving DecidableEq, Repr

/-- Row of the `FilterType` model (fields read by this endpoint). -/
structure FilterTypeRow4 where
  id : Nat
  name : String
  is_active : Bool
  is_default : Bool
  deriving DecidableEq, Repr

/-- Row of the `FilterOption` model (fields read by this endpoint). -/
structure FilterOptionRow4 where
  id : Nat
  filter_type_id : Nat
  name : String
  display_order : Nat
  is_active : Bool
  deriving DecidableEq, Repr

/-- Row of the `CategoryFilter` join model: scoped to a category or a
subcategory, with its own display order and active flag. -/
structure CategoryFilterRow where
  id : Nat
  category_id : Option Nat
  subcategory_id : Option Nat
  filter_type_id : Nat
  display_order : Nat
  is_active : Bool
  deriving DecidableEq, Repr

/-- Row of the `Product` model (fields read by the count query). -/
structure ProductRow4 where
  id : Nat
  category_id : Nat
  in_stock : Bool
  deriving DecidableEq, Repr

/-- The tables consulted by the category-filters endpoint. -/
structure CategoryDB where
  categories : List CategoryRow
  subcategories : List SubCategoryRow
  filterTypes : List FilterTypeRow4
  options : List FilterOptionRow4
  categoryFilters : List CategoryFilterRow
  links : List ProductFilterValueRow
  products : List ProductRow4
  deriving Repr

/-- Stable insertion into a list ordered by `display_order` (equal keys keep
their earlier relative order), modelling `order_by('display_order')`. -/
def insertByOrder (cf : CategoryFilterRow) : List CategoryFilterRow → List CategoryFilterRow
  | [] => [cf]
  | x :: xs =>
      if cf.display_order < x.display_order then cf :: x :: xs
      else x :: insertByOrder cf xs

/-- `order_by('display_order')` as a stable sort of the table order. -/
def sortByDisplayOrder (l : List CategoryFilterRow) : List CategoryFilterRow :=
  l.foldr insertByOrder []

/-- Whether a `CategoryFilter` row links to the category directly or through
one of its subcategories (`Q(category=category) | Q(subcategory__category=category)`). -/
def linksToCategory (db : CategoryDB) (catId : Nat) (cf : CategoryFilterRow) : Bool :=
  cf.category_id == some catId ||
    db.subcategories.any (fun sc =>
      cf.subcategory_id == some sc.id && sc.category_id == catId)

/-- The `category_filters` queryset of `CategoryFiltersView.get`: active rows
linked to the category, ordered by their `display_order`. -/
def activeCategoryFilters (db : CategoryDB) (catId : Nat) : List CategoryFilterRow :=
  sortByDisplayOrder (db.categoryFilters.filter (fun cf =>
    cf.is_active && linksToCategory db catId cf))

/-- The dedup loop of `CategoryFiltersView.get`: walk the ordered
`CategoryFilter` rows, keep the first occurrence of each active filter type,
and carry the linking row's `display_order` alongside for the ordering
argument. -/
def collectFilterTypes (db : CategoryDB) :
    List CategoryFilterRow → List Nat → List (Nat × FilterTypeRow4)
  | [], _ => []
  | cf :: rest, seen =>
      match db.filterTypes.find? (fun ft => ft.id == cf.filter_type_id) with
      | some ft =>
          if ft.is_active && !(seen.contains ft.id) then
            (cf.display_order, ft) :: collectFilterTypes db rest (ft.id :: seen)
          else collectFilterTypes db rest seen
      | none => collectFilterTypes db rest seen

/-- The count computed by the view's annotation loop for an active option:
distinct in-stock products of the category carrying the option
(`values('product').distinct().count()`). The loop assigns it as
`option.product_count` on fresh instances produced by
`ft.options.filter(is_active=True)`, which are discarded before
serialization, so this value never reaches the response. -/
def optionProductCount (db : CategoryDB) (catId : Nat) (optId : Nat) : Nat :=
  ((db.links.filter (fun l => l.filter_option_id == optId &&
    db.products.any (fun p =>
      p.id == l.product_id && p.category_id == catId && p.in_stock))).map
    (·.product_id)).dedup.length

/-- Stable insertion by the `FilterOption` Meta ordering
`['display_order', 'name']`. -/
def insertOption (o : FilterOptionRow4) : List FilterOptionRow4 → List FilterOptionRow4
  | [] => [o]
  | x :: xs =>
      if o.display_order < x.display_order ||
          (o.display_order == x.display_order && o.name < x.name) then
        o :: x :: xs
      else x :: insertOption o xs

/-- The option ordering applied by the related manager. -/
def sortOptions (l : List FilterOptionRow4) : List FilterOptionRow4 :=
  l.foldr insertOption []

/-- One serialized filter type of the response (`FilterTypeSerializer`): the
type plus all of its options in the model's `['display_order', 'name']`
ordering, each with `product_count` 0. `get_product_count` reads
`getattr(obj, 'product_count', 0)` on the option instances the serializer
iterates (`ft.options.all()`, the prefetched cache); the annotation loop
wrote the live counts onto different, fresh instances from
`ft.options.filter(is_active=True)`, so the attribute is never present and
the default 0 is serialized for every option. -/
def serializeFilterType (db : CategoryDB) (ft : FilterTypeRow4) :
    FilterTypeRow4 × List (FilterOptionRow4 × Nat) :=
  (ft, (sortOptions (db.options.filter (fun o => o.filter_type_id == ft.id))).map
    (fun o => (o, 0)))

/-- `Category.objects.get(slug=category_slug)` with `DoesNotExist` as `none`. -/
def categoryBySlug (db : CategoryDB) (slug : String) : Option CategoryRow :=
  db.categories.find? (fun c => c.slug == slug)

/-- Shallow embedding of `CategoryFiltersView.get`: 404 for an unknown slug,
otherwise the deduplicated active filter types of the category's active
links, in link display order, serialized with `product_count` 0 on every
option (the loop's live counts are written to discarded instances). -/
def categoryFiltersResponse (db : CategoryDB) (slug : String) :
    Option (List (FilterTypeRow4 × List (FilterOptionRow4 × Nat))) :=
  match categoryBySlug db slug with
  | none => none
  | some cat =>
      some (((collectFilterTypes db (activeCategoryFilters db cat.id) []).map (·.2)).map
        (serializeFilterType db))

/-- Concrete store for the C4 counterexample: category `beds` linked to the
non-default type `Zeta` at display order 0 and to the default-flagged type
`Alpha` at display order 1; `Zeta` has the active option `King`, carried by
the in-stock product 10 of the category. -/
def exampleCategoryDB : CategoryDB :=
  { categories := [⟨1, "beds"⟩],
    subcategories := [],
    filterTypes := [⟨1, "Zeta", true, false⟩, ⟨2, "Alpha", true, true⟩],
    options := [⟨1, 1, "King", 0, true⟩],
    categoryFilters := [⟨1, some 1, none, 1, 0, true⟩, ⟨2, some 1, none, 2, 1, true⟩],
    links := [⟨10, 1⟩],
    products := [⟨10, 1, true⟩] }

/-- Counterexample to C4 as stated, on two clauses. Ordering: the response
lists the non-default type `Zeta` before the default-flagged type `Alpha`
(no name tiebreak either), because `CategoryFiltersView.get` orders only by
the linking `CategoryFilter.display_order`. Counts: the active option `King`
is serialized with `product_count` 0 even though one distinct in-stock
product of the category carries it — the annotation loop computes that count
on fresh instances that the serializer never sees. -/
theorem category_filters_order_counterexample :
    categoryFiltersResponse exampleCategoryDB "beds"
      = some [(⟨1, "Zeta", true, false⟩, [(⟨1, 1, "King", 0, true⟩, 0)]),
          (⟨2, "Alpha", true, true⟩, [])] ∧
    (⟨1, "Zeta", true, false⟩ : FilterTypeRow4).is_default = false ∧
    (⟨2, "Alpha", true, true⟩ : FilterTypeRow4).is_default = true ∧
    optionProductCount exampleCategoryDB 1 1 = 1 := by
  refine ⟨rfl, rfl, rfl, rfl⟩

lemma mem_insertByOrder (cf : CategoryFilterRow) (l : List CategoryFilterRow)
    (x : CategoryFilterRow) : x ∈ insertByOrder cf l ↔ x = cf ∨ x ∈ l := by
  induction l with
  | nil => simp [insertByOrder]
  | cons y ys ih =>
      unfold insertByOrder
      by_cases h : cf.display_order < y.display_order
      · rw [if_pos h]
        simp
      · rw [if_neg h]
        simp only [List.mem_cons, ih]
        tauto

lemma pairwise_insertByOrder (cf : CategoryFilterRow) (l : List CategoryFilterRow)
    (h : l.Pairwise (fun a b => a.display_order ≤ b.display_order)) :
    (insertByOrder cf l).Pairwise (fun a b => a.display_order ≤ b.display_order) := by
  induction l with
  | nil => simp [insertByOrder]
  | cons y ys ih =>
      unfold insertByOrder
      rw [List.pairwise_cons] at h
      by_cases hlt : cf.display_order < y.display_order
      · rw [if_pos hlt]
        apply List.Pairwise.cons
        · intro z hz
          rcases List.mem_cons.mp hz with rfl | hz'
          · omega
          · have := h.1 z hz'
            omega
        · exact List.Pairwise.cons h.1 h.2
      · rw [if_neg hlt]
        apply List.Pairwise.cons
        · intro z hz
          rcases (mem_insertByOrder cf ys z).mp hz with rfl | hz'
          · omega
          · exact h.1 z hz'
        · exact ih h.2

lemma pairwise_sortByDisplayOrder (l : List CategoryFilterRow) :
    (sortByDisplayOrder l).Pairwise (fun a b => a.display_order ≤ b.display_order) := by
  unfold sortByDisplayOrder
  induction l with
  | nil => simp
  | cons x xs ih => exact pairwise_insertByOrder x _ ih

lemma mem_sortByDisplayOrder (l : List CategoryFilterRow) (x : CategoryFilterRow) :
    x ∈ sortByDisplayOrder l ↔ x ∈ l := by
  unfold sortByDisplayOrder
  induction l with
  | nil => simp
  | cons y ys ih =>
      rw [List.foldr_cons, mem_insertByOrder, ih]
      simp

lemma collect_orders_sublist (db : CategoryDB) :
    ∀ (l : List CategoryFilterRow) (seen : List Nat),
      ((collectFilterTypes db l seen).map (·.1)).Sublist (l.map (·.display_order)) := by
  intro l
  induction l with
  | nil => intro seen; simp [collectFilterTypes]
  | cons cf rest ih =>
      intro seen
      unfold collectFilterTypes
      cases hf : db.filterTypes.find? (fun ft => ft.id == cf.filter_type_id) with
      | some ft =>
          dsimp only
          by_cases hc : (ft.is_active && !(seen.contains ft.id)) = true
          · rw [if_pos hc]
            simp only [List.map_cons]
            exact List.Sublist.cons₂ _ (ih _)
          · rw [if_neg hc]
            exact (ih seen).trans (List.sublist_cons_self _ _)
      | none => exact (ih seen).trans (List.sublist_cons_self _ _)

lemma collect_ids_fresh (db : CategoryDB) :
    ∀ (l : List CategoryFilterRow) (seen : List Nat),
      ((collectFilterTypes db l seen).map (·.2.id)).Nodup ∧
      (∀ i ∈ (collectFilterTypes db l seen).map (·.2.id), i ∉ seen) := by
  intro l
  induction l with
  | nil => intro seen; simp [collectFilterTypes]
  | cons cf rest ih =>
      intro seen
      unfold collectFilterTypes
      cases hf : db.filterTypes.find? (fun ft => ft.id == cf.filter_type_id) with
      | some ft =>
          dsimp only
          by_cases hc : (ft.is_active && !(seen.contains ft.id)) = true
          · rw [if_pos hc]
            have hrec := ih (ft.id :: seen)
            simp only [List.map_cons]
            constructor
            · rw [List.nodup_cons]
              refine ⟨?_, hrec.1⟩
              intro hmem
              exact (hrec.2 _ hmem) (by simp)
            · intro i hi
              rcases List.mem_cons.mp hi with rfl | hi'
              · have := (Bool.and_eq_true _ _).mp hc
                simpa using this.2
              · intro hcontra
                exact (hrec.2 i hi') (by simp [hcontra])
          · rw [if_neg hc]
            exact ih seen
      | none => exact ih seen

lemma mem_collectFilterTypes (db : CategoryDB)
    (hft : (db.filterTypes.map (·.id)).Nodup) :
    ∀ (l : List CategoryFilterRow) (seen : List Nat) (ft : FilterTypeRow4),
      (ft ∈ (collectFilterTypes db l seen).map (·.2) ↔
        ft.id ∉ seen ∧ ft ∈ db.filterTypes ∧ ft.is_active = true ∧
          ∃ cf ∈ l, cf.filter_type_id = ft.id) := by
  have hinj : ∀ a ∈ db.filterTypes, ∀ b ∈ db.filterTypes, a.id = b.id → a = b := by
    intro a ha b hb hab
    exact List.inj_on_of_nodup_map hft ha hb hab
  intro l
  induction l with
  | nil =>
      intro seen ft
      simp [collectFilterTypes]
  | cons cf rest ih =>
      intro seen ft
      unfold collectFilterTypes
      cases hf : db.filterTypes.find? (fun ft => ft.id == cf.filter_type_id) with
      | some ft' =>
          dsimp only
          have hft'mem : ft' ∈ db.filterTypes := List.mem_of_find?_eq_some hf
          have hft'id : ft'.id = cf.filter_type_id := by
            have := List.find?_some hf
            simpa using this
          by_cases hc : (ft'.is_active && !(seen.contains ft'.id)) = true
          · rw [if_pos hc]
            have hcond := (Bool.and_eq_true _ _).mp hc
            have hact' : ft'.is_active = true := hcond.1
            have hseen' : ft'.id ∉ seen := by simpa using hcond.2
            simp only [List.map_cons, List.mem_cons]
            constructor
            · rintro (rfl | hmem)
              · exact ⟨hseen', hft'mem, hact', cf, by simp, hft'id.symm⟩
              · have hrec := (ih (ft'.id :: seen) ft).mp hmem
                refine ⟨fun hcontra => hrec.1 (by simp [hcontra]), hrec.2.1, hrec.2.2.1, ?_⟩
                obtain ⟨cf', hcf', hcfid⟩ := hrec.2.2.2
                exact ⟨cf', by simp [hcf'], hcfid⟩
            · rintro ⟨hseen, hmem, hact, cf', hcf', hcfid⟩
              by_cases heq : ft = ft'
              · exact Or.inl heq
              · apply Or.inr
                apply (ih (ft'.id :: seen) ft).mpr
                have hidne : ft.id ≠ ft'.id := by
                  intro hcontra
                  exact heq (hinj ft hmem ft' hft'mem hcontra)
                refine ⟨by simp [hseen, hidne], hmem, hact, ?_⟩
                rcases hcf' with rfl | hcf''
                · exfalso
                  exact hidne (hcfid.symm.trans hft'id.symm)
                · exact ⟨cf', hcf'', hcfid⟩
          · rw [if_neg hc]
            rw [ih seen ft]
            constructor
            · rintro ⟨hseen, hmem, hact, cf', hcf', hcfid⟩
              exact ⟨hseen, hmem, hact, cf', List.mem_cons_of_mem _ hcf', hcfid⟩
            · rintro ⟨hseen, hmem, hact, cf', hcf', hcfid⟩
              refine ⟨hseen, hmem, hact, ?_⟩
              have hcf2 : cf' = cf ∨ cf' ∈ rest := List.mem_cons.mp hcf'
              rcases hcf2 with rfl | hcf''
              · exfalso
                have hfteq : ft = ft' :=
                  hinj ft hmem ft' hft'mem (hcfid.symm.trans hft'id.symm)
                subst hfteq
                rw [hact] at hc
                simp at hc
                exact hseen (by simpa using hc)
              · exact ⟨cf', hcf'', hcfid⟩
      | none =>
          rw [ih seen ft]
          have hnone := List.find?_eq_none.mp hf
          constructor
          · rintro ⟨hseen, hmem, hact, cf', hcf', hcfid⟩
            exact ⟨hseen, hmem, hact, cf', List.mem_cons_of_mem _ hcf', hcfid⟩
          · rintro ⟨hseen, hmem, hact, cf', hcf', hcfid⟩
            refine ⟨hseen, hmem, hact, ?_⟩
            have hcf2 : cf' = cf ∨ cf' ∈ rest := List.mem_cons.mp hcf'
            rcases hcf2 with rfl | hcf''
            · exfalso
              have h1 := hnone ft hmem
              simp only [beq_iff_eq] at h1
              exact h1 hcfid.symm
            · exact ⟨cf', hcf'', hcfid⟩

/-- With duplicate-free product ids, the per-option annotation equals the
number of in-stock products of the category linked to the option. -/
lemma optionProductCount_eq (db : CategoryDB) (catId optId : Nat)
    (hprod : (db.products.map (·.id)).Nodup) :
    optionProductCount db catId optId =
      (db.products.filter (fun p => p.category_id == catId && p.in_stock &&
        db.links.any (fun l =>
          l.product_id == p.id && l.filter_option_id == optId))).length := by
  have hR : ((db.products.filter (fun p => p.category_id == catId && p.in_stock &&
      db.links.any (fun l =>
        l.product_id == p.id && l.filter_option_id == optId))).map (·.id)).Nodup :=
    hprod.sublist (List.Sublist.map _ (List.filter_sublist _))
  have hL : (((db.links.filter (fun l => l.filter_option_id == optId &&
      db.products.any (fun p =>
        p.id == l.product_id && p.category_id == catId && p.in_stock))).map
      (·.product_id)).dedup).Nodup := List.nodup_dedup _
  have hmem : ∀ a, a ∈ ((db.links.filter (fun l => l.filter_option_id == optId &&
      db.products.any (fun p =>
        p.id == l.product_id && p.category_id == catId && p.in_stock))).map
      (·.product_id)).dedup ↔
      a ∈ (db.products.filter (fun p => p.category_id == catId && p.in_stock &&
        db.links.any (fun l =>
          l.product_id == p.id && l.filter_option_id == optId))).map (·.id) := by
    intro a
    simp only [List.mem_dedup, List.mem_map, List.mem_filter, List.any_eq_true,
      Bool.and_eq_true, beq_iff_eq]
    constructor
    · rintro ⟨l, ⟨hl, hopt, p, hp, ⟨hpid, hcat⟩, hstock⟩, rfl⟩
      exact ⟨p, ⟨hp, ⟨hcat, hstock⟩, l, hl, hpid.symm, hopt⟩, hpid⟩
    · rintro ⟨p, ⟨hp, ⟨hcat, hstock⟩, l, hl, hlid, hopt⟩, rfl⟩
      exact ⟨l, ⟨hl, hopt, p, hp, ⟨hlid.symm, hcat⟩, hstock⟩, hlid⟩
  have hperm := (List.perm_ext_iff_of_nodup hL hR).mpr hmem
  have hlen := hperm.length_eq
  unfold optionProductCount
  rw [hlen, List.length_map]

/-- **C4** (corrected). With duplicate-free filter-type and product ids: an
unknown category slug yields the not-found response; for a known slug the
response lists exactly the active filter types linked to the category through
an active `CategoryFilter` row (directly or via a subcategory), deduplicated
by type id, ordered solely by the linking row's `display_order` with the first
occurrence kept (no `is_default` promotion and no name tiebreak), each type
serialized per `FilterTypeSerializer` with every option carrying
`product_count` 0; the annotation loop does compute the count of distinct
in-stock products of the category per option, but only onto discarded
instances, so that value never appears in the response. -/
theorem category_filters_listing (db : CategoryDB) (slug : String)
    (hft : (db.filterTypes.map (·.id)).Nodup)
    (hprod : (db.products.map (·.id)).Nodup) :
    (categoryFiltersResponse db slug = none ↔ categoryBySlug db slug = none) ∧
    (∀ cat res, categoryBySlug db slug = some cat →
      categoryFiltersResponse db slug = some res →
      res.map (·.1) =
        (collectFilterTypes db (activeCategoryFilters db cat.id) []).map (·.2) ∧
      (∀ ft : FilterTypeRow4, ft ∈ res.map (·.1) ↔
        ft ∈ db.filterTypes ∧ ft.is_active = true ∧
          ∃ cf ∈ db.categoryFilters, cf.is_active = true ∧
            linksToCategory db cat.id cf = true ∧ cf.filter_type_id = ft.id) ∧
      (res.map (·.1.id)).Nodup ∧
      ((collectFilterTypes db (activeCategoryFilters db cat.id) []).map
        (·.1)).Pairwise (fun a b => a ≤ b) ∧
      (∀ e ∈ res, e = serializeFilterType db e.1) ∧
      (∀ e ∈ res, ∀ oc ∈ e.2, oc.2 = 0) ∧
      (∀ optId, optionProductCount db cat.id optId =
        (db.products.filter (fun p => p.category_id == cat.id && p.in_stock &&
          db.links.any (fun l =>
            l.product_id == p.id && l.filter_option_id == optId))).length)) := by
  constructor
  · unfold categoryFiltersResponse
    cases h : categoryBySlug db slug <;> simp
  · intro cat res hcat hres
    unfold categoryFiltersResponse at hres
    rw [hcat] at hres
    dsimp only at hres
    injection hres with hres
    subst hres
    have h1 : (((collectFilterTypes db (activeCategoryFilters db cat.id) []).map
        (·.2)).map (serializeFilterType db)).map (·.1) =
        (collectFilterTypes db (activeCategoryFilters db cat.id) []).map (·.2) := by
      simp [serializeFilterType, List.map_map, Function.comp]
    refine ⟨h1, ?_, ?_, ?_, ?_, ?_, ?_⟩
    · intro ft
      rw [h1, mem_collectFilterTypes db hft (activeCategoryFilters db cat.id) [] ft]
      simp only [List.not_mem_nil, not_false_iff, true_and]
      constructor
      · rintro ⟨hmem, hact, cf, hcf, hid⟩
        have hcf2 := (mem_sortByDisplayOrder _ _).mp hcf
        rw [List.mem_filter, Bool.and_eq_true] at hcf2
        exact ⟨hmem, hact, cf, hcf2.1, hcf2.2.1, hcf2.2.2, hid⟩
      · rintro ⟨hmem, hact, cf, hcf, hactcf, hlink, hid⟩
        refine ⟨hmem, hact, cf, ?_, hid⟩
        exact (mem_sortByDisplayOrder _ _).mpr
          (List.mem_filter.mpr ⟨hcf, by rw [Bool.and_eq_true]; exact ⟨hactcf, hlink⟩⟩)
    · have h3 := (collect_ids_fresh db (activeCategoryFilters db cat.id) []).1
      simpa [List.map_map, Function.comp, serializeFilterType] using h3
    · have h4 : (activeCategoryFilters db cat.id).Pairwise
          (fun a b => a.display_order ≤ b.display_order) :=
        pairwise_sortByDisplayOrder _
      have h5 : ((activeCategoryFilters db cat.id).map (·.display_order)).Pairwise
          (fun a b => a ≤ b) := List.pairwise_map.mpr h4
      exact List.Pairwise.sublist
        (collect_orders_sublist db (activeCategoryFilters db cat.id) []) h5
    · intro e he
      rw [List.mem_map] at he
      obtain ⟨ft, _, rfl⟩ := he
      rfl
    · intro e he oc hoc
      rw [List.mem_map] at he
      obtain ⟨ft, _, rfl⟩ := he
      have hoc2 : oc ∈ (sortOptions (db.options.filter
          (fun o => o.filter_type_id == ft.id))).map (fun o => (o, 0)) := hoc
      rw [List.mem_map] at hoc2
      obtain ⟨o, _, rfl⟩ := hoc2
      rfl
    · intro optId
      exact optionProductCount_eq db cat.id optId hprod

/-- Witness for C4: the concrete store has duplicate-free filter-type and
product id columns, and an unknown slug yields the not-found response. -/
theorem category_filters_listing_witness :
    (exampleCategoryDB.filterTypes.map (·.id)).Nodup ∧
    (exampleCategoryDB.products.map (·.id)).Nodup ∧
    (categoryFiltersResponse exampleCategoryDB "sofas" = none ↔
      categoryBySlug exampleCategoryDB "sofas" = none) :=
  ⟨by decide, by decide,
    (category_filters_listing exampleCategoryDB "sofas" (by decide) (by decide)).1⟩

/-! ## C10: unique slug generation (`ProductWriteSerializer._generate_unique_slug`
and `validate`, src/api/serializers.py; `Product.slug`, src/api/models.py) -/

/-- Characters folded into a dash by `slugify` (the `[-\s]+` class). -/
def slugDashSpace (c : Char) : Bool := c = '-' || c.isWhitespace

/-- Characters surviving the `[^\w\s-]` deletion of `slugify` (ASCII input). -/
def slugKeep (c : Char) : Bool := c.isAlphanum || c = '_' || slugDashSpace c

/-- Collapse every maximal run of whitespace-or-dash characters into one dash
(`re.sub(r"[-\s]+", "-", value)`). -/
def collapseRuns : List Char → List Char
  | [] => []
  | [c] => if slugDashSpace c then ['-'] else [c]
  | c :: d :: rest =>
      if slugDashSpace c then
        if slugDashSpace d then collapseRuns (d :: rest)
        else '-' :: collapseRuns (d :: rest)
      else c :: collapseRuns (d :: rest)

/-- The characters removed from both ends by the final `.strip("-_")`. -/
def slugStripChar (c : Char) : Bool := c = '-' || c = '_'

/-- `.strip("-_")` on a character list. -/
def stripEnds (l : List Char) : List Char :=
  ((l.dropWhile slugStripChar).reverse.dropWhile slugStripChar).reverse

/-- Django's `slugify` on ASCII input: lowercase, delete characters outside
word/whitespace/dash, collapse whitespace-or-dash runs to a single dash, and
strip dashes and underscores from both ends. -/
def slugifyChars (s : String) : List Char :=
  stripEnds (collapseRuns ((s.toList.map Char.toLower).filter slugKeep))

/-- Width of the `Product.slug` column (`SlugField(unique=True, max_length=255)`). -/
def slugMaxLen : Nat := 255

/-- `base_slug = (slugify(raw_value) or "product")[:max_length]`. -/
def slugBase (raw : String) : List Char :=
  (if slugifyChars raw = [] then "product".toList else slugifyChars raw).take slugMaxLen

/-- Numeric value of a decimal digit character (total, garbage mapped to 9). -/
def charDigit (c : Char) : Nat :=
  if c = '0' then 0 else if c = '1' then 1 else if c = '2' then 2
  else if c = '3' then 3 else if c = '4' then 4 else if c = '5' then 5
  else if c = '6' then 6 else if c = '7' then 7 else if c = '8' then 8 else 9

/-- Decimal digit character of a value below ten (values above mapped to 9). -/
def digitChar (d : Nat) : Char :=
  if d = 0 then '0' else if d = 1 then '1' else if d = 2 then '2'
  else if d = 3 then '3' else if d = 4 then '4' else if d = 5 then '5'
  else if d = 6 then '6' else if d = 7 then '7' else if d = 8 then '8' else '9'

/-- Big-endian decimal digits of `n` with explicit fuel (empty at `n = 0`). -/
def natDigitsGo : Nat → Nat → List Char
  | 0, _ => []
  | fuel + 1, n =>
      if n = 0 then [] else natDigitsGo fuel (n / 10) ++ [digitChar (n % 10)]

/-- The rendering `str(n)` of a counter value. -/
def natDigits (n : Nat) : List Char :=
  if n = 0 then ['0'] else natDigitsGo n n

/-- Decimal value of a digit string (decoder used for injectivity). -/
def digitsVal (l : List Char) : Nat := l.foldl (fun a c => a * 10 + charDigit c) 0

/-- One suffixed candidate of the loop:
`base_slug[: max_length - len(suffix)] + suffix` with `suffix = "-" + str(k)`. -/
def slugCandidate (base : List Char) (k : Nat) : List Char :=
  base.take (slugMaxLen - (1 + (natDigits k).length)) ++ '-' :: natDigits k

/-- The `while queryset.filter(slug=slug).exists()` loop from counter `k`,
with explicit fuel. -/
def slugLoop (existing : List String) (base : List Char) : Nat → Nat → String
  | 0, k => String.mk (slugCandidate base k)
  | fuel + 1, k =>
      if String.mk (slugCandidate base k) ∈ existing then
        slugLoop existing base fuel (k + 1)
      else String.mk (slugCandidate base k)

/-- `_generate_unique_slug(raw)` against the slugs of all other products
(the queryset excludes the instance being updated). -/
def generateUniqueSlug (existing : List String) (raw : String) : String :=
  if String.mk (slugBase raw) ∈ existing then
    slugLoop existing (slugBase raw) (existing.length + 1) 1
  else String.mk (slugBase raw)

/-- The maximal dashless suffix: decodes the counter out of a candidate. -/
def afterLastDash (l : List Char) : List Char :=
  (l.reverse.takeWhile (fun c => c != '-')).reverse

lemma charDigit_digitChar : ∀ d < 10, charDigit (digitChar d) = d := by decide

lemma digitChar_ne_dash : ∀ d < 10, digitChar d ≠ '-' := by decide

lemma natDigitsGo_no_dash : ∀ fuel n, '-' ∉ natDigitsGo fuel n := by
  intro fuel
  induction fuel with
  | zero => intro n; simp [natDigitsGo]
  | succ fuel ih =>
      intro n
      unfold natDigitsGo
      by_cases hn : n = 0
      · simp [hn]
      · rw [if_neg hn]
        intro hmem
        rcases List.mem_append.mp hmem with h | h
        · exact ih (n / 10) h
        · have hd : digitChar (n % 10) = '-' := (List.mem_singleton.mp h).symm
          exact digitChar_ne_dash (n % 10) (Nat.mod_lt _ (by norm_num)) hd

lemma natDigits_no_dash (n : Nat) : '-' ∉ natDigits n := by
  unfold natDigits
  by_cases hn : n = 0
  · simp [hn]
  · rw [if_neg hn]
    exact natDigitsGo_no_dash n n

lemma digitsVal_append (l : List Char) (c : Char) :
    digitsVal (l ++ [c]) = digitsVal l * 10 + charDigit c := by
  simp [digitsVal, List.foldl_append]

lemma digitsVal_natDigitsGo : ∀ fuel n, n ≤ fuel → digitsVal (natDigitsGo fuel n) = n := by
  intro fuel
  induction fuel with
  | zero =>
      intro n hn
      have : n = 0 := Nat.le_zero.mp hn
      simp [this, natDigitsGo, digitsVal]
  | succ fuel ih =>
      intro n hn
      unfold natDigitsGo
      by_cases h0 : n = 0
      · simp [h0, digitsVal]
      · rw [if_neg h0, digitsVal_append]
        have hdiv : n / 10 < n := Nat.div_lt_self (Nat.pos_of_ne_zero h0) (by norm_num)
        rw [ih (n / 10) (by omega)]
        rw [charDigit_digitChar (n % 10) (Nat.mod_lt _ (by norm_num))]
        omega

lemma digitsVal_natDigits (n : Nat) : digitsVal (natDigits n) = n := by
  unfold natDigits
  by_cases h0 : n = 0
  · simp [h0, digitsVal, charDigit]
  · rw [if_neg h0]
    exact digitsVal_natDigitsGo n n (le_refl n)

lemma takeWhile_append_eq (p : Char → Bool) :
    ∀ (l : List Char) (c : Char) (r : List Char),
      (∀ x ∈ l, p x = true) → p c = false → (l ++ c :: r).takeWhile p = l := by
  intro l
  induction l with
  | nil =>
      intro c r _ hc
      simp [List.takeWhile_cons, hc]
  | cons x xs ih =>
      intro c r hall hc
      have hx : p x = true := hall x (by simp)
      rw [List.cons_append, List.takeWhile_cons, hx]
      simp [ih c r (fun y hy => hall y (by simp [hy])) hc]

lemma afterLastDash_eq (t d : List Char) (hd : '-' ∉ d) :
    afterLastDash (t ++ '-' :: d) = d := by
  unfold afterLastDash
  have hrev : (t ++ '-' :: d).reverse = d.reverse ++ '-' :: t.reverse := by
    simp
  rw [hrev, takeWhile_append_eq _ d.reverse '-' t.reverse
    (fun x hx => by
      simp only [bne_iff_ne, ne_eq, decide_eq_true_eq]
      intro hcontra
      exact hd (by simpa [hcontra] using List.mem_reverse.mp hx))
    (by decide)]
  simp

lemma slugCandidate_inj (base : List Char) (j k : Nat)
    (h : slugCandidate base j = slugCandidate base k) : j = k := by
  have hj := afterLastDash_eq (base.take (slugMaxLen - (1 + (natDigits j).length)))
    (natDigits j) (natDigits_no_dash j)
  have hk := afterLastDash_eq (base.take (slugMaxLen - (1 + (natDigits k).length)))
    (natDigits k) (natDigits_no_dash k)
  have hdig : natDigits j = natDigits k := by
    rw [← hj, ← hk]
    unfold slugCandidate at h
    rw [h]
  have := congrArg digitsVal hdig
  rwa [digitsVal_natDigits, digitsVal_natDigits] at this

lemma natDigitsGo_length : ∀ fuel n d, n < 10 ^ d → (natDigitsGo fuel n).length ≤ d := by
  intro fuel
  induction fuel with
  | zero => intro n d _; simp [natDigitsGo]
  | succ fuel ih =>
      intro n d hn
      unfold natDigitsGo
      by_cases h0 : n = 0
      · simp [h0]
      · rw [if_neg h0]
        have hd1 : 1 ≤ d := by
          by_contra hc
          have : d = 0 := by omega
          rw [this, pow_zero] at hn
          omega
        obtain ⟨d', rfl⟩ : ∃ d', d = d' + 1 := ⟨d - 1, by omega⟩
        have hdiv : n / 10 < 10 ^ d' := by
          rw [Nat.div_lt_iff_lt_mul (by norm_num : 0 < 10)]
          calc n < 10 ^ (d' + 1) := hn
            _ = 10 ^ d' * 10 := pow_succ 10 d'
        have := ih (n / 10) d' hdiv
        simp only [List.length_append, List.length_cons, List.length_nil]
        omega

lemma natDigits_length (n d : Nat) (hd : 0 < d) (hn : n < 10 ^ d) :
    (natDigits n).length ≤ d := by
  unfold natDigits
  by_cases h0 : n = 0
  · simpa [h0] using hd
  · rw [if_neg h0]
    exact natDigitsGo_length n n d hn

lemma slugCandidate_length (base : List Char) (k : Nat)
    (h : 1 + (natDigits k).length ≤ slugMaxLen) :
    (slugCandidate base k).length ≤ slugMaxLen ∧ slugCandidate base k ≠ [] := by
  constructor
  · unfold slugCandidate
    rw [List.length_append, List.length_take, List.length_cons]
    have := Nat.min_le_left (slugMaxLen - (1 + (natDigits k).length)) base.length
    omega
  · unfold slugCandidate
    intro hcon
    have := congrArg List.length hcon
    rw [List.length_append, List.length_cons, List.length_nil] at this
    omega

lemma exists_fresh_candidate (existing : List String) (base : List Char) :
    ∃ j, 1 ≤ j ∧ j ≤ existing.length + 1 ∧
      String.mk (slugCandidate base j) ∉ existing := by
  by_contra hcon
  push_neg at hcon
  have hinj : Function.Injective (fun j => String.mk (slugCandidate base j)) := by
    intro j k h
    exact slugCandidate_inj base j k (congrArg String.data h)
  have hnodup : ((List.range' 1 (existing.length + 1)).map
      (fun j => String.mk (slugCandidate base j))).Nodup :=
    List.Nodup.map hinj (List.nodup_range' 1 (existing.length + 1))
  have hsub : ∀ s ∈ (List.range' 1 (existing.length + 1)).map
      (fun j => String.mk (slugCandidate base j)), s ∈ existing := by
    intro s hs
    rw [List.mem_map] at hs
    obtain ⟨j, hj, rfl⟩ := hs
    rw [List.mem_range'_1] at hj
    exact hcon j hj.1 (by omega)
  have hsubF : ((List.range' 1 (existing.length + 1)).map
      (fun j => String.mk (slugCandidate base j))).toFinset ⊆ existing.toFinset := by
    intro s hs
    rw [List.mem_toFinset] at hs ⊢
    exact hsub s hs
  have hcard := Finset.card_le_card hsubF
  rw [List.toFinset_card_of_nodup hnodup, List.length_map, List.length_range'] at hcard
  have := List.toFinset_card_le existing
  omega

lemma slugLoop_spec (existing : List String) (base : List Char) :
    ∀ fuel k, (∃ j, k ≤ j ∧ j < k + fuel ∧ String.mk (slugCandidate base j) ∉ existing) →
      ∃ j, k ≤ j ∧ j < k + fuel ∧
        slugLoop existing base fuel k = String.mk (slugCandidate base j) ∧
        slugLoop existing base fuel k ∉ existing := by
  intro fuel
  induction fuel with
  | zero =>
      rintro k ⟨j, h1, h2, _⟩
      omega
  | succ fuel ih =>
      rintro k ⟨j, h1, h2, h3⟩
      unfold slugLoop
      by_cases hk : String.mk (slugCandidate base k) ∈ existing
      · rw [if_pos hk]
        have hjk : j ≠ k := fun h => h3 (h ▸ hk)
        obtain ⟨j', h1', h2', h3', h4'⟩ := ih (k + 1) ⟨j, by omega, by omega, h3⟩
        exact ⟨j', by omega, by omega, h3', h4'⟩
      · rw [if_neg hk]
        exact ⟨k, le_refl k, by omega, rfl, hk⟩

/-- **C10**. For every product write against fewer than about `10 ^ 200`
other products, the stored slug is absent from every other product's slug,
non-empty, and no longer than the 255-character slug column (the counter
suffix truncates the base so the suffixed slug still fits); hence pairwise
distinctness of product slugs is preserved by every write. -/
theorem slug_uniqueness_invariant (existing : List String) (raw : String)
    (hsize : existing.length + 2 ≤ 10 ^ 200) :
    generateUniqueSlug existing raw ∉ existing ∧
    generateUniqueSlug existing raw ≠ "" ∧
    (generateUniqueSlug existing raw).length ≤ slugMaxLen ∧
    (existing.Nodup → (generateUniqueSlug existing raw :: existing).Nodup) := by
  have hbase_len : (slugBase raw).length ≤ slugMaxLen := by
    unfold slugBase
    rw [List.length_take]
    exact Nat.min_le_left _ _
  have hbase_ne : slugBase raw ≠ [] := by
    unfold slugBase
    intro hcon
    have hlen := congrArg List.length hcon
    rw [List.length_take, List.length_nil] at hlen
    by_cases h0 : slugifyChars raw = []
    · rw [if_pos h0] at hlen
      have h7 : ("product".toList).length = 7 := rfl
      have h255 : slugMaxLen = 255 := rfl
      omega
    · rw [if_neg h0] at hlen
      have hpos : 0 < (slugifyChars raw).length := List.length_pos.mpr h0
      have h255 : slugMaxLen = 255 := rfl
      omega
  unfold generateUniqueSlug
  by_cases hb : String.mk (slugBase raw) ∈ existing
  · rw [if_pos hb]
    obtain ⟨j0, hj1, hj2, hj3⟩ := exists_fresh_candidate existing (slugBase raw)
    obtain ⟨j, hjl, hju, heq, hnotin⟩ := slugLoop_spec existing (slugBase raw)
      (existing.length + 1) 1 ⟨j0, hj1, by omega, hj3⟩
    have hjbound : j < 10 ^ 200 := by omega
    have hdig : (natDigits j).length ≤ 200 :=
      natDigits_length j 200 (by norm_num) hjbound
    have hcand := slugCandidate_length (slugBase raw) j
      (by
        have h255 : slugMaxLen = 255 := rfl
        omega)
    refine ⟨hnotin, ?_, ?_, fun hnd => List.nodup_cons.mpr ⟨hnotin, hnd⟩⟩
    · rw [heq]
      intro hcon
      exact hcand.2 (congrArg String.data hcon)
    · rw [heq]
      show (slugCandidate (slugBase raw) j).length ≤ slugMaxLen
      exact hcand.1
  · rw [if_neg hb]
    refine ⟨hb, ?_, ?_, fun hnd => List.nodup_cons.mpr ⟨hb, hnd⟩⟩
    · intro hcon
      exact hbase_ne (congrArg String.data hcon)
    · show (slugBase raw).length ≤ slugMaxLen
      exact hbase_len

/-- Witness for C10: against the single existing slug `oak-bed`, the raw name
`Oak Bed!` slugifies to the taken `oak-bed` and the loop yields `oak-bed-1`. -/
theorem slug_uniqueness_invariant_witness :
    (["oak-bed"] : List String).length + 2 ≤ 10 ^ 200 ∧
    generateUniqueSlug ["oak-bed"] "Oak Bed!" ∉ (["oak-bed"] : List String) ∧
    generateUniqueSlug ["oak-bed"] "Oak Bed!" = "oak-bed-1" :=
  ⟨by norm_num,
    (slug_uniqueness_invariant ["oak-bed"] "Oak Bed!" (by norm_num)).1,
    by decide⟩
